import Mathlib

/-!
Verification development for the libSBML MathML reader/writer
(`MathML.cpp`): a shallow embedding of the AST node type, the
recursive-descent MathML reader on token streams, and the tree-to-token
writer, followed by theorems checking the specification's claims.

Modelling conventions:
* C++ `double` is modelled as an exact rational number (`ℚ`).  IEEE special
  values (NaN, infinities) are not representable in this model, so
  `isNaN`/`isInfinity`/`isNegInfinity` are `false` on every node the model
  can build; no claim under study depends on IEEE specials.
* `sizeof(int) = 4` and `sizeof(long) = 8`, as on the usual LP64 targets of
  the library; `istringstream >> int` uses the C++11 semantics (failbit on
  no digits or overflow, value clamped on overflow, zero on no digits).
* The XML token stream abstraction (`XMLInputStream`/`XMLOutputStream`)
  is modelled as a list of tokens; recursion is bounded by an explicit
  fuel parameter (the standard termination device: any fuel at least the
  recursion depth of the input gives the function's real value, and the
  general theorems are stated uniformly in the fuel).
* AST extension plugins (`getASTPlugin`) are modelled as absent: no
  package extensions are registered, which matches the core configuration
  the specification describes.
-/

namespace LibSBML

/-- ASTNodeType_t, the tagged kind of an AST node.  The numeric codes the
source relies on (ordering comparisons and the table offset from
`AST_FUNCTION_ABS`) are given by `astCode` below. -/
inductive ASTType where
  | AST_PLUS
  | AST_MINUS
  | AST_TIMES
  | AST_DIVIDE
  | AST_POWER
  | AST_INTEGER
  | AST_REAL
  | AST_REAL_E
  | AST_RATIONAL
  | AST_NAME
  | AST_NAME_AVOGADRO
  | AST_NAME_TIME
  | AST_CONSTANT_E
  | AST_CONSTANT_FALSE
  | AST_CONSTANT_PI
  | AST_CONSTANT_TRUE
  | AST_LAMBDA
  | AST_FUNCTION
  | AST_FUNCTION_ABS
  | AST_FUNCTION_ARCCOS
  | AST_FUNCTION_ARCCOSH
  | AST_FUNCTION_ARCCOT
  | AST_FUNCTION_ARCCOTH
  | AST_FUNCTION_ARCCSC
  | AST_FUNCTION_ARCCSCH
  | AST_FUNCTION_ARCSEC
  | AST_FUNCTION_ARCSECH
  | AST_FUNCTION_ARCSIN
  | AST_FUNCTION_ARCSINH
  | AST_FUNCTION_ARCTAN
  | AST_FUNCTION_ARCTANH
  | AST_FUNCTION_CEILING
  | AST_FUNCTION_COS
  | AST_FUNCTION_COSH
  | AST_FUNCTION_COT
  | AST_FUNCTION_COTH
  | AST_FUNCTION_CSC
  | AST_FUNCTION_CSCH
  | AST_FUNCTION_DELAY
  | AST_FUNCTION_EXP
  | AST_FUNCTION_FACTORIAL
  | AST_FUNCTION_FLOOR
  | AST_FUNCTION_LN
  | AST_FUNCTION_LOG
  | AST_FUNCTION_PIECEWISE
  | AST_FUNCTION_POWER
  | AST_FUNCTION_ROOT
  | AST_FUNCTION_SEC
  | AST_FUNCTION_SECH
  | AST_FUNCTION_SIN
  | AST_FUNCTION_SINH
  | AST_FUNCTION_TAN
  | AST_FUNCTION_TANH
  | AST_LOGICAL_AND
  | AST_LOGICAL_NOT
  | AST_LOGICAL_OR
  | AST_LOGICAL_XOR
  | AST_RELATIONAL_EQ
  | AST_RELATIONAL_GEQ
  | AST_RELATIONAL_GT
  | AST_RELATIONAL_LEQ
  | AST_RELATIONAL_LT
  | AST_RELATIONAL_NEQ
  | AST_FUNCTION_RATE_OF
  | AST_CSYMBOL_FUNCTION
  | AST_UNKNOWN
deriving DecidableEq, Repr

open ASTType

/-- Numeric value of each ASTNodeType_t enumerator.  The header defining the
enumeration is not under src/; the values here reproduce the layout the
source file relies on: the five operator characters, then a consecutive
block from `AST_INTEGER` (256) in which `AST_FUNCTION_ABS .. AST_RELATIONAL_NEQ`
are consecutive and parallel to the `MATHML_FUNCTIONS` table, with
`AST_CSYMBOL_FUNCTION` below `AST_UNKNOWN` and plugin kinds above it. -/
def astCode : ASTType → Nat
  | AST_PLUS => 43
  | AST_MINUS => 45
  | AST_TIMES => 42
  | AST_DIVIDE => 47
  | AST_POWER => 94
  | AST_INTEGER => 256
  | AST_REAL => 257
  | AST_REAL_E => 258
  | AST_RATIONAL => 259
  | AST_NAME => 260
  | AST_NAME_AVOGADRO => 261
  | AST_NAME_TIME => 262
  | AST_CONSTANT_E => 263
  | AST_CONSTANT_FALSE => 264
  | AST_CONSTANT_PI => 265
  | AST_CONSTANT_TRUE => 266
  | AST_LAMBDA => 267
  | AST_FUNCTION => 268
  | AST_FUNCTION_ABS => 269
  | AST_FUNCTION_ARCCOS => 270
  | AST_FUNCTION_ARCCOSH => 271
  | AST_FUNCTION_ARCCOT => 272
  | AST_FUNCTION_ARCCOTH => 273
  | AST_FUNCTION_ARCCSC => 274
  | AST_FUNCTION_ARCCSCH => 275
  | AST_FUNCTION_ARCSEC => 276
  | AST_FUNCTION_ARCSECH => 277
  | AST_FUNCTION_ARCSIN => 278
  | AST_FUNCTION_ARCSINH => 279
  | AST_FUNCTION_ARCTAN => 280
  | AST_FUNCTION_ARCTANH => 281
  | AST_FUNCTION_CEILING => 282
  | AST_FUNCTION_COS => 283
  | AST_FUNCTION_COSH => 284
  | AST_FUNCTION_COT => 285
  | AST_FUNCTION_COTH => 286
  | AST_FUNCTION_CSC => 287
  | AST_FUNCTION_CSCH => 288
  | AST_FUNCTION_DELAY => 289
  | AST_FUNCTION_EXP => 290
  | AST_FUNCTION_FACTORIAL => 291
  | AST_FUNCTION_FLOOR => 292
  | AST_FUNCTION_LN => 293
  | AST_FUNCTION_LOG => 294
  | AST_FUNCTION_PIECEWISE => 295
  | AST_FUNCTION_POWER => 296
  | AST_FUNCTION_ROOT => 297
  | AST_FUNCTION_SEC => 298
  | AST_FUNCTION_SECH => 299
  | AST_FUNCTION_SIN => 300
  | AST_FUNCTION_SINH => 301
  | AST_FUNCTION_TAN => 302
  | AST_FUNCTION_TANH => 303
  | AST_LOGICAL_AND => 304
  | AST_LOGICAL_NOT => 305
  | AST_LOGICAL_OR => 306
  | AST_LOGICAL_XOR => 307
  | AST_RELATIONAL_EQ => 308
  | AST_RELATIONAL_GEQ => 309
  | AST_RELATIONAL_GT => 310
  | AST_RELATIONAL_LEQ => 311
  | AST_RELATIONAL_LT => 312
  | AST_RELATIONAL_NEQ => 313
  | AST_FUNCTION_RATE_OF => 314
  | AST_CSYMBOL_FUNCTION => 315
  | AST_UNKNOWN => 316

/-- MATHML_ELEMENTS: the sorted table of recognized MathML element names. -/
def MATHML_ELEMENTS : List String :=
  [ "abs", "and", "annotation", "annotation-xml", "apply", "arccos",
    "arccosh", "arccot", "arccoth", "arccsc", "arccsch", "arcsec",
    "arcsech", "arcsin", "arcsinh", "arctan", "arctanh", "bvar",
    "ceiling", "ci", "cn", "cos", "cosh", "cot", "coth", "csc", "csch",
    "csymbol", "degree", "divide", "eq", "exp", "exponentiale",
    "factorial", "false", "floor", "geq", "gt", "infinity", "lambda",
    "leq", "ln", "log", "logbase", "lt", "math", "minus", "neq", "not",
    "notanumber", "or", "otherwise", "pi", "piece", "piecewise", "plus",
    "power", "root", "sec", "sech", "semantics", "sep", "sin", "sinh",
    "tan", "tanh", "times", "true", "xor" ]

/-- MATHML_FUNCTIONS: the name table indexed by `astCode ty - astCode AST_FUNCTION_ABS`. -/
def MATHML_FUNCTIONS : List String :=
  [ "abs", "arccos", "arccosh", "arccot", "arccoth", "arccsc", "arccsch",
    "arcsec", "arcsech", "arcsin", "arcsinh", "arctan", "arctanh",
    "ceiling", "cos", "cosh", "cot", "coth", "csc", "csch", "csymbol",
    "exp", "factorial", "floor", "ln", "log", "piecewise", "power",
    "root", "sec", "sech", "sin", "sinh", "tan", "tanh", "and", "not",
    "or", "xor", "eq", "geq", "gt", "leq", "lt", "neq" ]

/-- MATHML_TYPES: the AST kind paired with each entry of MATHML_ELEMENTS. -/
def MATHML_TYPES : List ASTType :=
  [ AST_FUNCTION_ABS, AST_LOGICAL_AND, AST_UNKNOWN, AST_UNKNOWN,
    AST_FUNCTION, AST_FUNCTION_ARCCOS, AST_FUNCTION_ARCCOSH,
    AST_FUNCTION_ARCCOT, AST_FUNCTION_ARCCOTH, AST_FUNCTION_ARCCSC,
    AST_FUNCTION_ARCCSCH, AST_FUNCTION_ARCSEC, AST_FUNCTION_ARCSECH,
    AST_FUNCTION_ARCSIN, AST_FUNCTION_ARCSINH, AST_FUNCTION_ARCTAN,
    AST_FUNCTION_ARCTANH, AST_UNKNOWN, AST_FUNCTION_CEILING, AST_NAME,
    AST_CSYMBOL_FUNCTION, AST_FUNCTION_COS, AST_FUNCTION_COSH,
    AST_FUNCTION_COT, AST_FUNCTION_COTH, AST_FUNCTION_CSC,
    AST_FUNCTION_CSCH, AST_NAME, AST_UNKNOWN, AST_DIVIDE,
    AST_RELATIONAL_EQ, AST_FUNCTION_EXP, AST_CONSTANT_E,
    AST_FUNCTION_FACTORIAL, AST_CONSTANT_FALSE, AST_FUNCTION_FLOOR,
    AST_RELATIONAL_GEQ, AST_RELATIONAL_GT, AST_REAL, AST_LAMBDA,
    AST_RELATIONAL_LEQ, AST_FUNCTION_LN, AST_FUNCTION_LOG, AST_UNKNOWN,
    AST_RELATIONAL_LT, AST_UNKNOWN, AST_MINUS, AST_RELATIONAL_NEQ,
    AST_LOGICAL_NOT, AST_REAL, AST_LOGICAL_OR, AST_UNKNOWN,
    AST_CONSTANT_PI, AST_UNKNOWN, AST_FUNCTION_PIECEWISE, AST_PLUS,
    AST_FUNCTION_POWER, AST_FUNCTION_ROOT, AST_FUNCTION_SEC,
    AST_FUNCTION_SECH, AST_UNKNOWN, AST_UNKNOWN, AST_FUNCTION_SIN,
    AST_FUNCTION_SINH, AST_FUNCTION_TAN, AST_FUNCTION_TANH, AST_TIMES,
    AST_CONSTANT_TRUE, AST_LOGICAL_XOR ]

/-- Lowercase an ASCII string, for the case-insensitive name lookups of
`util_bsearchStringsI`. -/
def lowerStr (s : String) : String :=
  String.mk (s.toList.map Char.toLower)

/-- Index of a name in MATHML_ELEMENTS under case-insensitive comparison;
models `util_bsearchStringsI` over the sorted table (binary search over a
sorted table finds exactly the case-insensitively equal entry). -/
def mathmlElementIndex (name : String) : Option Nat :=
  (MATHML_ELEMENTS.map lowerStr).indexOf? (lowerStr name)

/-- URL_TIME constant. -/
def URL_TIME : String := "http://www.sbml.org/sbml/symbols/time"

/-- URL_DELAY constant. -/
def URL_DELAY : String := "http://www.sbml.org/sbml/symbols/delay"

/-- URL_AVOGADRO constant. -/
def URL_AVOGADRO : String := "http://www.sbml.org/sbml/symbols/avogadro"

/-- SBMLNamespaces: only the level/version pair is consulted by this file. -/
structure SBMLNS where
  level : Nat
  version : Nat
deriving DecidableEq, Repr

/-- SBML_DEFAULT_LEVEL. -/
def SBML_DEFAULT_LEVEL : Nat := 3

/-- SBML_DEFAULT_VERSION. -/
def SBML_DEFAULT_VERSION : Nat := 2

/-- XMLToken: a start tag (possibly also an end tag, for an empty
element), an end tag, or character data. -/
structure XMLToken where
  nm : String
  attrs : List (String × String)
  isStart : Bool
  isEnd : Bool
  chars : String
deriving DecidableEq, Repr

namespace XMLToken

def getName (t : XMLToken) : String := t.nm

def getCharacters (t : XMLToken) : String := t.chars

/-- XMLToken::isText: neither a start nor an end tag. -/
def isText (t : XMLToken) : Bool := !t.isStart && !t.isEnd

/-- XMLToken::isEndFor: an end tag whose name matches the given element. -/
def isEndFor (t : XMLToken) (elem : XMLToken) : Bool :=
  t.isEnd && t.nm = elem.nm

/-- XMLAttributes::readInto: yields the attribute value, or the caller's
current value when the attribute is absent. -/
def readInto (t : XMLToken) (key : String) (current : String) : String :=
  match t.attrs.lookup key with
  | some v => v
  | none => current

def hasAttr (t : XMLToken) (key : String) : Bool :=
  (t.attrs.lookup key).isSome

end XMLToken

/-- A start token. -/
def tkStart (nm : String) (attrs : List (String × String)) : XMLToken :=
  ⟨nm, attrs, true, false, ""⟩

/-- A start token that is also its own end (an empty element `<nm/>`). -/
def tkEmpty (nm : String) (attrs : List (String × String)) : XMLToken :=
  ⟨nm, attrs, true, true, ""⟩

/-- An end token. -/
def tkEnd (nm : String) : XMLToken := ⟨nm, [], false, true, ""⟩

/-- A character-data token. -/
def tkText (s : String) : XMLToken := ⟨"", [], false, false, s⟩

/-- The empty token `peek` yields at end of stream. -/
def tkEOF : XMLToken := ⟨"", [], false, false, ""⟩

/-- The input stream is a list of tokens. -/
abbrev Stream := List XMLToken

namespace Stream

def isGood (s : Stream) : Bool := !s.isEmpty

def peekT (s : Stream) : XMLToken := s.headD tkEOF

def nextT (s : Stream) : XMLToken × Stream := (s.headD tkEOF, s.tail)

/-- XMLInputStream::skipText: consume text tokens while the stream is good. -/
def skipText (s : Stream) : Stream := s.dropWhile XMLToken.isText

/-- XMLInputStream::skipPastEnd: nothing to do when the element is already
an end (including an empty element); otherwise consume up to and
including the first end tag matching the element's name. -/
def skipPastEnd (s : Stream) (elem : XMLToken) : Stream :=
  if elem.isEnd then s
  else (s.dropWhile (fun t => !t.isEndFor elem)).tail

end Stream

/-- Diagnostic codes posted by the reader (SBMLErrorCode_t values used in
MathML.cpp).  `errCode` below gives their numeric values. -/
inductive Err where
  | InvalidUnitIdSyntax
  | FailedMathMLReadOfDouble
  | FailedMathMLReadOfInteger
  | FailedMathMLReadOfExponential
  | FailedMathMLReadOfRational
  | DisallowedMathTypeAttributeValue
  | BadCsymbolDefinitionURLValue
  | DisallowedMathMLSymbol
  | InvalidMathElement
  | DisallowedMathTypeAttributeUse
  | DisallowedMathMLEncodingUse
  | DisallowedDefinitionURLUse
  | DisallowedMathUnitsUse
  | InvalidMathMLAttribute
  | BadMathML
  | BadMathMLNodeType
  | OpsNeedCorrectNumberOfArgs
deriving DecidableEq, Repr

/-- Numeric error codes.  SBMLError.h is not under src/; the specification
fixes only the tolerated piece/otherwise child-count code, 10218
(`OpsNeedCorrectNumberOfArgs`).  The other values are modelled as
pairwise-distinct codes different from 10218, which is all the source
relies on (`log.contains(10218)` and `log.contains(BadMathML)`). -/
def errCode : Err → Nat
  | .OpsNeedCorrectNumberOfArgs => 10218
  | .InvalidUnitIdSyntax => 10221
  | .FailedMathMLReadOfDouble => 10222
  | .FailedMathMLReadOfInteger => 10223
  | .FailedMathMLReadOfExponential => 10224
  | .FailedMathMLReadOfRational => 10225
  | .DisallowedMathTypeAttributeValue => 10207
  | .BadCsymbolDefinitionURLValue => 10205
  | .DisallowedMathMLSymbol => 10202
  | .InvalidMathElement => 10201
  | .DisallowedMathTypeAttributeUse => 10206
  | .DisallowedMathMLEncodingUse => 10203
  | .DisallowedDefinitionURLUse => 10204
  | .DisallowedMathUnitsUse => 10226
  | .InvalidMathMLAttribute => 10227
  | .BadMathML => 10228
  | .BadMathMLNodeType => 10229

/-- Expression tree node (ASTNode).  Numeric payload fields mirror the
ASTNode members: `mInteger` (also the rational numerator), `mReal` (also
the e-notation mantissa), `mDenominator`, `mExponent`. -/
inductive AST where
  | node (ty : ASTType) (children : List AST)
      (mInteger : Int) (mReal : ℚ) (mDenominator : Int) (mExponent : Int)
      (nm : String) (units : String) (definitionURL : Option String)
      (ident : String) (className : String) (style : String)
      (bvarFlag : Bool) (semanticsFlag : Bool)
      (semanticAnnots : List (List XMLToken))

namespace AST

/-- Default-constructed ASTNode. -/
def new : AST :=
  .node AST_UNKNOWN [] 0 0 1 0 "" "" none "" "" "" false false []

/-- Constructor `ASTNode(type)`. -/
def newOfType (t : ASTType) : AST :=
  .node t [] 0 0 1 0 "" "" none "" "" "" false false []

def getType : AST → ASTType
  | .node t _ _ _ _ _ _ _ _ _ _ _ _ _ _ => t

def children : AST → List AST
  | .node _ cs _ _ _ _ _ _ _ _ _ _ _ _ _ => cs

def mInteger : AST → Int
  | .node _ _ i _ _ _ _ _ _ _ _ _ _ _ _ => i

def mReal : AST → ℚ
  | .node _ _ _ r _ _ _ _ _ _ _ _ _ _ _ => r

def mDenominator : AST → Int
  | .node _ _ _ _ d _ _ _ _ _ _ _ _ _ _ => d

def mExponent : AST → Int
  | .node _ _ _ _ _ e _ _ _ _ _ _ _ _ _ => e

def getName : AST → String
  | .node _ _ _ _ _ _ n _ _ _ _ _ _ _ _ => n

def getUnits : AST → String
  | .node _ _ _ _ _ _ _ u _ _ _ _ _ _ _ => u

def getDefinitionURL : AST → Option String
  | .node _ _ _ _ _ _ _ _ d _ _ _ _ _ _ => d

def getId : AST → String
  | .node _ _ _ _ _ _ _ _ _ i _ _ _ _ _ => i

def getClass : AST → String
  | .node _ _ _ _ _ _ _ _ _ _ c _ _ _ _ => c

def getStyle : AST → String
  | .node _ _ _ _ _ _ _ _ _ _ _ s _ _ _ => s

def isBvar : AST → Bool
  | .node _ _ _ _ _ _ _ _ _ _ _ _ b _ _ => b

def getSemanticsFlag : AST → Bool
  | .node _ _ _ _ _ _ _ _ _ _ _ _ _ f _ => f

def getSemanticAnnots : AST → List (List XMLToken)
  | .node _ _ _ _ _ _ _ _ _ _ _ _ _ _ a => a

def setChildren : AST → List AST → AST
  | .node t _ i r d e n u du iid c s b f a, cs => .node t cs i r d e n u du iid c s b f a

def setType : AST → ASTType → AST
  | .node _ cs i r d e n u du iid c s b f a, t => .node t cs i r d e n u du iid c s b f a

/-- ASTNode::setName.  ASTNode.cpp is not under src/; per its documented
behavior a node whose kind is still AST_UNKNOWN is promoted to AST_NAME
when a name is set, otherwise the kind is kept. -/
def setName : AST → String → AST
  | .node t cs i r d e _ u du iid c s b f a, n =>
    .node (if t = AST_UNKNOWN then AST_NAME else t) cs i r d e n u du iid c s b f a

/-- ASTNode::setValue(int): integer kind. -/
def setValueInt : AST → Int → AST
  | .node _ cs _ r _ e n u du iid c s b f a, v =>
    .node AST_INTEGER cs v r 1 e n u du iid c s b f a

/-- ASTNode::setValue(double): real kind. -/
def setValueReal : AST → ℚ → AST
  | .node _ cs i _ d e n u du iid c s b f a, v =>
    .node AST_REAL cs i v d e n u du iid c s b f a

/-- ASTNode::setValue(double mantissa, long exponent): e-notation kind. -/
def setValueE : AST → ℚ → Int → AST
  | .node _ cs i _ d _ n u du iid c s b f a, m, e =>
    .node AST_REAL_E cs i m d e n u du iid c s b f a

/-- ASTNode::setValue(long numerator, long denominator): rational kind. -/
def setValueRational : AST → Int → Int → AST
  | .node _ cs _ r _ e n u du iid c s b f a, num, den =>
    .node AST_RATIONAL cs num r den e n u du iid c s b f a

def isNumber (x : AST) : Bool :=
  x.getType = AST_INTEGER || x.getType = AST_REAL ||
  x.getType = AST_REAL_E || x.getType = AST_RATIONAL

/-- ASTNode::setUnits: only succeeds on a number node. -/
def setUnits (x : AST) : String → AST :=
  fun u => if x.isNumber then
    match x with
    | .node t cs i r d e n _ du iid c s b f a => .node t cs i r d e n u du iid c s b f a
  else x

def setDefinitionURL (x : AST) (url : String) : AST :=
  match x with
  | .node t cs i r d e n u _ iid c s b f a => .node t cs i r d e n u (some url) iid c s b f a

def setId (x : AST) (v : String) : AST :=
  match x with
  | .node t cs i r d e n u du _ c s b f a => .node t cs i r d e n u du v c s b f a

def setClass (x : AST) (v : String) : AST :=
  match x with
  | .node t cs i r d e n u du iid _ s b f a => .node t cs i r d e n u du iid v s b f a

def setStyle (x : AST) (v : String) : AST :=
  match x with
  | .node t cs i r d e n u du iid c _ b f a => .node t cs i r d e n u du iid c v b f a

def setBvar (x : AST) : AST :=
  match x with
  | .node t cs i r d e n u du iid c s _ f a => .node t cs i r d e n u du iid c s true f a

def setSemanticsFlag (x : AST) : AST :=
  match x with
  | .node t cs i r d e n u du iid c s b _ a => .node t cs i r d e n u du iid c s b true a

def addSemanticsAnnot (x : AST) (ann : List XMLToken) : AST :=
  match x with
  | .node t cs i r d e n u du iid c s b f a => .node t cs i r d e n u du iid c s b f (a ++ [ann])

def getNumChildren (x : AST) : Nat := x.children.length

def addChild (x : AST) (c : AST) : AST := x.setChildren (x.children ++ [c])

def prependChild (x : AST) (c : AST) : AST := x.setChildren (c :: x.children)

def getChild (x : AST) (n : Nat) : Option AST := x.children.get? n

def getLeftChild (x : AST) : Option AST := x.children.head?

/-- ASTNode::getRightChild: the last child, or none when the node has
fewer than two children. -/
def getRightChild (x : AST) : Option AST :=
  if x.getNumChildren > 1 then x.children.getLast? else none

def isName (x : AST) : Bool :=
  x.getType = AST_NAME || x.getType = AST_NAME_AVOGADRO || x.getType = AST_NAME_TIME

def isOperator (x : AST) : Bool :=
  x.getType = AST_PLUS || x.getType = AST_MINUS || x.getType = AST_TIMES ||
  x.getType = AST_DIVIDE || x.getType = AST_POWER

def isConstant (x : AST) : Bool :=
  x.getType = AST_CONSTANT_E || x.getType = AST_CONSTANT_FALSE ||
  x.getType = AST_CONSTANT_PI || x.getType = AST_CONSTANT_TRUE

def isLambda (x : AST) : Bool := x.getType = AST_LAMBDA

def isPiecewise (x : AST) : Bool := x.getType = AST_FUNCTION_PIECEWISE

def isInteger (x : AST) : Bool := x.getType = AST_INTEGER

def isRational (x : AST) : Bool := x.getType = AST_RATIONAL

def isUnknown (x : AST) : Bool := x.getType = AST_UNKNOWN

/-- In the rational model of `double` the IEEE special values do not
exist, so a node is never NaN. -/
def isNaN (_ : AST) : Bool := false

/-- See `isNaN`: positive infinity is not representable in the model. -/
def isInfinity (_ : AST) : Bool := false

/-- See `isNaN`: negative infinity is not representable in the model. -/
def isNegInfinity (_ : AST) : Bool := false

def getInteger (x : AST) : Int := x.mInteger

def getNumerator (x : AST) : Int := x.mInteger

def getDenominator (x : AST) : Int := x.mDenominator

def getMantissa (x : AST) : ℚ := x.mReal

def getExponent (x : AST) : Int := x.mExponent

def getReal (x : AST) : ℚ :=
  if x.getType = AST_REAL_E then x.mReal * (10 : ℚ) ^ x.mExponent
  else if x.getType = AST_INTEGER then (x.mInteger : ℚ)
  else x.mReal

end AST

mutual

/-- ASTNode::hasUnits: true when this node or any descendant carries a
non-empty units string. -/
def AST.hasUnits : AST → Bool
  | .node _ cs _ _ _ _ _ u _ _ _ _ _ _ _ => u ≠ "" || AST.hasUnitsList cs

/-- hasUnits over a child list. -/
def AST.hasUnitsList : List AST → Bool
  | [] => false
  | c :: cs => AST.hasUnits c || AST.hasUnitsList cs

end

/-- Characters treated as whitespace by `trim` (" \t\r\n"). -/
def isTrimWS (c : Char) : Bool :=
  c = ' ' || c = '\t' || c = '\r' || c = '\n'

/-- The `trim` helper: whitespace removed from both ends. -/
def trim (s : String) : String :=
  String.mk (((s.toList.dropWhile isTrimWS).reverse.dropWhile isTrimWS).reverse)

/-- SyntaxChecker::isValidInternalUnitSId.  SyntaxChecker is not under
src/.  Modelled from the spec: units strings are "validated against
identifier syntax rules" (letter or underscore first, then letters,
digits, underscores), and the internal variant accepts the empty string
(the value used when the attribute is absent). -/
def isValidInternalUnitSId (s : String) : Bool :=
  match s.toList with
  | [] => true
  | c :: rest => (c.isAlpha || c = '_') && rest.all (fun d => d.isAlphanum || d = '_')

/-- Whitespace skipped by `operator>>` (C locale isspace). -/
def isStreamWS (c : Char) : Bool :=
  c = ' ' || c = '\t' || c = '\r' || c = '\n' || c = '\x0b' || c = '\x0c'

/-- Digits-to-Nat accumulator. -/
def digitsToNat (ds : List Char) : Nat :=
  ds.foldl (fun acc c => acc * 10 + (c.toNat - 48)) 0

/-- Reads an optional sign and a run of digits from the front of a
character list; returns (isNegative, digits, rest). -/
def readSignDigits (cs : List Char) : Bool × List Char × List Char :=
  let (neg, cs1) :=
    match cs with
    | '-' :: rest => (true, rest)
    | '+' :: rest => (false, rest)
    | _ => (false, cs)
  let ds := cs1.takeWhile Char.isDigit
  (neg, ds, cs1.drop ds.length)

/-- SBML_INT_MAX. -/
def SBML_INT_MAX : Int := 2147483647

/-- SBML_INT_MIN. -/
def SBML_INT_MIN : Int := -2147483648

/-- The mathematical integer a piece of numeric text denotes (leading
whitespace skipped, optional sign, digits), or none when no digits are
present. -/
def decIntValue (s : String) : Option Int :=
  let (neg, ds, _) := readSignDigits (s.toList.dropWhile isStreamWS)
  if ds.isEmpty then none
  else some ((if neg then -1 else 1) * (digitsToNat ds : Int))

/-- The C++11 semantics of `istringstream >> (int&)`: failbit with value 0
when no digits are present, failbit with the clamped bound when the
denoted value overflows the 32-bit int.  Returns (value, failed). -/
def istreamInt (s : String) : Int × Bool :=
  match decIntValue s with
  | none => (0, true)
  | some v =>
    if v > SBML_INT_MAX then (SBML_INT_MAX, true)
    else if v < SBML_INT_MIN then (SBML_INT_MIN, true)
    else (v, false)

/-- The C++11 semantics of `istringstream >> (long&)` on an LP64 target:
64-bit bounds. -/
def istreamLong (s : String) : Int × Bool :=
  match decIntValue s with
  | none => (0, true)
  | some v =>
    if v > 9223372036854775807 then (9223372036854775807, true)
    else if v < -9223372036854775808 then (-9223372036854775808, true)
    else (v, false)

/-- The semantics of `istringstream >> (double&)` in the rational model:
optional sign, digits with an optional fraction part, optional exponent;
failbit (with value 0) when no mantissa digits are present or an exponent
marker is not followed by digits.  The value is the exact decimal value
denoted (doubles are modelled as rationals). -/
def istreamDouble (s : String) : ℚ × Bool :=
  let cs := s.toList.dropWhile isStreamWS
  let (neg, intDs, rest1) := readSignDigits cs
  let (fracDs, rest2) :=
    match rest1 with
    | '.' :: r =>
      let fs := r.takeWhile Char.isDigit
      (fs, r.drop fs.length)
    | _ => ([], rest1)
  if intDs.isEmpty && fracDs.isEmpty then (0, true)
  else
    let mant : ℚ :=
      (if neg then -1 else 1) *
        ((digitsToNat intDs : ℚ) + (digitsToNat fracDs : ℚ) / (10 : ℚ) ^ fracDs.length)
    match rest2 with
    | 'e' :: r =>
      let (eneg, eds, _) := readSignDigits r
      if eds.isEmpty then (0, true)
      else (mant * (10 : ℚ) ^ ((if eneg then -1 else 1) * (digitsToNat eds : Int)), false)
    | 'E' :: r =>
      let (eneg, eds, _) := readSignDigits r
      if eds.isEmpty then (0, true)
      else (mant * (10 : ℚ) ^ ((if eneg then -1 else 1) * (digitsToNat eds : Int)), false)
    | _ => (mant, false)

/-- Formats an integer the way `ostream <<` does. -/
def intToString (i : Int) : String := toString i

/-- Auxiliary: decimal digits of the fractional expansion of num/den,
with trailing zeros kept (the caller strips them). -/
def fracDigits : Nat → Nat → Nat → List Char
  | 0, _, _ => []
  | _, 0, _ => []
  | fuel + 1, num, den =>
    if num = 0 then []
    else
      let d := num * 10 / den
      Char.ofNat (48 + d) :: fracDigits fuel (num * 10 % den) den

/-- Formats a model double (a rational) the way `ostream <<` at
LIBSBML_DOUBLE_PRECISION does, for the values reachable in this
development: an optional sign, the integer part, and a terminating
decimal fraction.  The scientific-notation branch of the C++ formatter is
modelled as never taken (no theorem below depends on the text of a
non-integer real). -/
def doubleToString (q : ℚ) : String :=
  let sign := if q < 0 then "-" else ""
  let aq := |q|
  let ip := aq.num.toNat / aq.den
  let rem := aq.num.toNat % aq.den
  let fds := fracDigits 17 rem aq.den
  if fds.isEmpty then sign ++ toString ip
  else sign ++ toString ip ++ "." ++ String.mk fds

/-- DefinitionURLRegistry::getType.  The registry class is not under
src/.  Modelled from the spec: the companion registry maps the c-symbol
definition URLs (time, delay, Avogadro, and the rate-of extension symbol)
to their kinds, and unknown URLs to AST_UNKNOWN. -/
def registryGetType (url : String) : ASTType :=
  if url = URL_TIME then AST_NAME_TIME
  else if url = URL_DELAY then AST_FUNCTION_DELAY
  else if url = URL_AVOGADRO then AST_NAME_AVOGADRO
  else if url = "http://www.sbml.org/sbml/symbols/rateOf" then AST_FUNCTION_RATE_OF
  else AST_UNKNOWN

/-- isValidCSymbol: whether a csymbol kind is legal under the active
level/version. -/
def isValidCSymbol (sbmlns : Option SBMLNS) (t : ASTType) : Bool :=
  match sbmlns with
  | none => true
  | some ns =>
    if ns.level < 2 then false
    else if ns.level < 3 && (t = AST_NAME_AVOGADRO || t = AST_FUNCTION_RATE_OF) then false
    else true

/-- setTypeCI: types a node from a `ci` or `csymbol` element, consuming
the trailing text token as the symbol name.  Returns the updated node,
the remaining stream, and the diagnostics posted. -/
def setTypeCI (node : AST) (element : XMLToken) (s : Stream) (sbmlns : Option SBMLNS) :
    AST × Stream × List Err :=
  let (node, errs) :=
    if element.getName = "csymbol" then
      let url := element.readInto "definitionURL" ""
      let ty := registryGetType url
      if sbmlns = none ∧ ty = AST_UNKNOWN then
        (((node.setType AST_CSYMBOL_FUNCTION).setDefinitionURL url), [])
      else
        if ty = AST_UNKNOWN || !isValidCSymbol sbmlns ty then
          (node, [Err.BadCsymbolDefinitionURLValue])
        else
          let node := node.setType ty
          let node :=
            if ty = AST_CSYMBOL_FUNCTION || astCode ty > astCode AST_UNKNOWN then
              node.setDefinitionURL url
            else node
          (node, [])
    else if element.getName = "ci" then
      if element.hasAttr "definitionURL" then
        (node.setDefinitionURL (element.readInto "definitionURL" ""), [])
      else (node, [])
    else (node, [])
  let (tok, s) := s.nextT
  let nm := trim tok.getCharacters
  (node.setName nm, s, errs)

/-- setTypeCN: types a node from a `cn` element, consuming its text
token(s).  The out-of-range re-check guarded by `sizeof(int) > 4` in the
source is omitted because the model fixes `sizeof(int) = 4` (the
extraction itself already fails with a clamped value on overflow). -/
def setTypeCN (node : AST) (element : XMLToken) (s : Stream) (_sbmlns : Option SBMLNS) :
    AST × Stream × List Err :=
  let ty := element.readInto "type" "real"
  let units := element.readInto "units" ""
  let unitErrs := if !isValidInternalUnitSId units then [Err.InvalidUnitIdSyntax] else []
  let (node, s, errs) :=
    if ty = "real" then
      let (tok, s) := s.nextT
      let (value, failed) := istreamDouble tok.getCharacters
      let node := node.setValueReal value
      (node, s,
        if failed || node.isInfinity || node.isNegInfinity then
          [Err.FailedMathMLReadOfDouble]
        else [])
    else if ty = "integer" then
      let (tok, s) := s.nextT
      let (value, failed) := istreamInt tok.getCharacters
      let errs := if failed then [Err.FailedMathMLReadOfInteger] else []
      (node.setValueInt value, s, errs)
    else if ty = "e-notation" then
      let (tok, s) := s.nextT
      let (mantissa, mfail) := istreamDouble tok.getCharacters
      let (exponent, efail, s) :=
        if (s.peekT).getName = "sep" then
          let s := (s.nextT).2
          let (tok2, s) := s.nextT
          let (e, ef) := istreamLong tok2.getCharacters
          (e, ef, s)
        else (0, false, s)
      let node := node.setValueE mantissa exponent
      (node, s,
        if mfail || efail || node.isInfinity || node.isNegInfinity then
          [Err.FailedMathMLReadOfExponential]
        else [])
    else if ty = "rational" then
      let (tok, s) := s.nextT
      let (numerator, nfail) := istreamInt tok.getCharacters
      let (denominator, dfail, s) :=
        if (s.peekT).getName = "sep" then
          let s := (s.nextT).2
          let (tok2, s) := s.nextT
          let (d, df) := istreamInt tok2.getCharacters
          (d, df, s)
        else (1, false, s)
      let errs := if nfail || dfail then [Err.FailedMathMLReadOfRational] else []
      (node.setValueRational numerator denominator, s, errs)
    else
      (node, s, [Err.DisallowedMathTypeAttributeValue])
  let node := if units ≠ "" then node.setUnits units else node
  (node, s, unitErrs ++ errs)

/-- setTypeOther: types a node from any other MathML element via the
MATHML_ELEMENTS/MATHML_TYPES tables (extension plugins are absent in the
model, so an unknown name leaves the node untouched). -/
def setTypeOther (node : AST) (element : XMLToken) : AST :=
  match mathmlElementIndex element.getName with
  | some idx => node.setType (MATHML_TYPES.getD idx AST_UNKNOWN)
  | none => node

/-- setType: dispatch on the current element name.  `notanumber` and
`infinity` set IEEE special double values in the source; the rational
model represents both payloads as 0 (no claim under study touches
them). -/
def setType (node : AST) (element : XMLToken) (s : Stream) (sbmlns : Option SBMLNS) :
    AST × Stream × List Err :=
  let nm := element.getName
  if nm = "ci" || nm = "csymbol" then setTypeCI node element s sbmlns
  else if nm = "cn" then setTypeCN node element s sbmlns
  else if nm = "notanumber" then (node.setValueReal 0, s, [])
  else if nm = "infinity" then (node.setValueReal 0, s, [])
  else (setTypeOther node element, s, [])

/-- checkFunctionArgs: synthesizes the default first argument for a
one-child log (base 10) or root (degree 2). -/
def checkFunctionArgs (node : AST) : AST :=
  if node.getNumChildren = 1 then
    if node.getType = AST_FUNCTION_LOG then
      let child := (AST.new.setValueInt 10).setUnits "dimensionless"
      node.prependChild child
    else if node.getType = AST_FUNCTION_ROOT then
      let child := (AST.new.setValueInt 2).setUnits "dimensionless"
      node.prependChild child
    else node
  else node

/-- reduceBinary: when a Plus/Times node already holds two children, they
are moved into a fresh node of the same kind which becomes the sole
child (`new ASTNode(type)`, `swapChildren`, `prependChild`). -/
def reduceBinary (node : AST) : AST :=
  if node.getNumChildren = 2 then
    let op := (AST.newOfType node.getType).setChildren node.children
    (node.setChildren []).prependChild op
  else node

/-- isMathMLNodeTag: the element names that may follow `math` (extension
plugins absent). -/
def isMathMLNodeTag (nm : String) : Bool :=
  nm = "apply" || nm = "cn" || nm = "ci" || nm = "csymbol" || nm = "true" ||
  nm = "false" || nm = "notanumber" || nm = "pi" || nm = "infinity" ||
  nm = "exponentiale" || nm = "semantics" || nm = "piecewise"

mutual

/-- The token consumption of the `XMLNode(XMLInputStream&)` constructor
used to capture a semantics annotation subtree: one element, with its
properly nested children, taken verbatim off the stream. -/
def consumeOne : Nat → Stream → List XMLToken × Stream
  | 0, s => ([], s)
  | fuel + 1, s =>
    let (tok, s) := s.nextT
    if tok.isStart && !tok.isEnd then
      let (rest, s) := consumeInner fuel tok s
      (tok :: rest, s)
    else ([tok], s)

/-- Children-then-end part of `consumeOne`. -/
def consumeInner : Nat → XMLToken → Stream → List XMLToken × Stream
  | 0, _, s => ([], s)
  | fuel + 1, elem, s =>
    if s.isGood && !((s.peekT).isEndFor elem) then
      let (one, s) := consumeOne fuel s
      let (more, s) := consumeInner fuel elem s
      (one ++ more, s)
    else
      let (e, s) := s.nextT
      ([e], s)

end

/-- The common tail of the recursive `readMathML`: `checkFunctionArgs`,
the trailing-children check for `otherwise`, and `skipPastEnd`. -/
def readTail (elem : XMLToken) (node : AST) (s : Stream) : AST × Stream × List Err :=
  let node := checkFunctionArgs node
  let (s, errs) :=
    if elem.getName = "otherwise" then
      let s : Stream := s.dropWhile XMLToken.isText
      if !((s.peekT).isEndFor elem) then (s, [Err.OpsNeedCorrectNumberOfArgs])
      else (s, [])
    else (s, [])
  (node, Stream.skipPastEnd s elem, errs)

mutual

/-- The recursive `readMathML(ASTNode&, XMLInputStream&, ...)`: reads one
MathML construct from the stream into `node`.  The required-prefix
machinery is omitted: every public entry point of the file passes an
empty required prefix, so those checks never fire.  Returns the updated
node, the remaining stream, and the diagnostics posted in order. -/
def readMathML (fuel : Nat) (node : AST) (s : Stream) (sbmlns : Option SBMLNS) :
    AST × Stream × List Err :=
  match fuel with
  | 0 => (node, s, [])
  | fuel + 1 =>
    let level := match sbmlns with | some ns => ns.level | none => 3
    let version := match sbmlns with | some ns => ns.version | none => 2
    let s := s.skipText
    if (s.peekT).getName = "math" && (s.peekT).isEnd then
      (node, s.skipPastEnd (s.peekT), [])
    else
    let (elem, s) := s.nextT
    let nm := elem.getName
    let found := (mathmlElementIndex nm).isSome
    let preErrs := if !found then [Err.DisallowedMathMLSymbol] else []
    let encoding := elem.readInto "encoding" ""
    let tyAttr := elem.readInto "type" ""
    let url := elem.readInto "definitionURL" ""
    let units := elem.readInto "units" ""
    let idAttr := elem.readInto "id" ""
    let classAttr := elem.readInto "class" ""
    let styleAttr := elem.readInto "style" ""
    let node := if idAttr ≠ "" then node.setId idAttr else node
    let node := if classAttr ≠ "" then node.setClass classAttr else node
    let node := if styleAttr ≠ "" then node.setStyle styleAttr else node
    let preErrs := preErrs ++
      (if tyAttr ≠ "" && nm ≠ "cn" then [Err.DisallowedMathTypeAttributeUse] else []) ++
      (if encoding ≠ "" && nm ≠ "csymbol" then [Err.DisallowedMathMLEncodingUse] else []) ++
      (if url ≠ "" then
        (if level > 2 then
          (if nm ≠ "csymbol" && nm ≠ "semantics" && nm ≠ "ci" then
            [Err.DisallowedDefinitionURLUse] else [])
        else if level = 2 && version = 5 then
          (if nm ≠ "csymbol" && nm ≠ "semantics" && nm ≠ "ci" then
            [Err.DisallowedDefinitionURLUse] else [])
        else
          (if nm ≠ "csymbol" && nm ≠ "semantics" then
            [Err.DisallowedDefinitionURLUse] else []))
       else []) ++
      (if units ≠ "" then
        (if level > 2 then
          (if nm ≠ "cn" then [Err.DisallowedMathUnitsUse] else [])
        else [Err.InvalidMathMLAttribute])
       else [])
    if nm = "apply" || nm = "lambda" || nm = "piecewise" then
      if nm = "apply" then
        if elem.isStart && elem.isEnd then (node, s, preErrs)
        else if elem.isEnd then (node, s, preErrs)
        else
          let s := s.skipText
          let nextName := (s.peekT).getName
          let headErrs :=
            if nextName = "bvar" || nextName = "piece" || nextName = "otherwise" ||
               nextName = "logbase" || nextName = "degree" || nextName = "lambda" ||
               nextName = "semantics" then [Err.BadMathML] else []
          let (node, s, e1) := readMathML fuel node s sbmlns
          let node := if node.isName then node.setType AST_FUNCTION else node
          let soFar := preErrs ++ headErrs ++ e1
          if node.isNumber then (node, s, soFar ++ [Err.BadMathML])
          else if node.getType = AST_CONSTANT_TRUE || node.getType = AST_CONSTANT_FALSE ||
                  node.getType = AST_CONSTANT_PI || node.getType = AST_CONSTANT_E then
            (node, s, soFar ++ [Err.BadMathML])
          else if node.getType = AST_FUNCTION_PIECEWISE then
            (node, s, soFar ++ [Err.BadMathML])
          else
            let (node, s, e2) := readLoop fuel elem node s sbmlns
            let (node, s, e3) := readTail elem node s
            (node, s, soFar ++ e2 ++ e3)
      else
        let node :=
          if nm = "lambda" then node.setType AST_LAMBDA
          else node.setType AST_FUNCTION_PIECEWISE
        let (node, s, e2) := readLoop fuel elem node s sbmlns
        let (node, s, e3) := readTail elem node s
        (node, s, preErrs ++ e2 ++ e3)
    else if nm = "bvar" then
      let node := node.setBvar
      let (node, s, e1) := readMathML fuel node s sbmlns
      let (node, s, e3) := readTail elem node s
      (node, s, preErrs ++ e1 ++ e3)
    else if nm = "degree" || nm = "logbase" || nm = "piece" || nm = "otherwise" then
      let (node, s, e1) := readMathML fuel node s sbmlns
      if nm = "piece" then (node, s, preErrs ++ e1)
      else
        let (node, s, e3) := readTail elem node s
        (node, s, preErrs ++ e1 ++ e3)
    else if nm = "semantics" then
      let (node, s, e1) := readMathML fuel node s sbmlns
      let node := node.setSemanticsFlag
      let node :=
        if elem.hasAttr "definitionURL" then
          node.setDefinitionURL (elem.readInto "definitionURL" "")
        else node
      let s := s.skipText
      let (node, s, e2) := readSemLoop fuel elem node s
      let (node, s, e3) := readTail elem node s
      (node, s, preErrs ++ e1 ++ e2 ++ e3)
    else
      let (node, s, e1) := setType node elem s sbmlns
      let (node, s, e3) := readTail elem node s
      (node, s, preErrs ++ e1 ++ e3)

/-- The child-reading loop of `readMathML` for apply/lambda/piecewise
nodes (the `while (stream.isGood() && ...)` at the heart of the reader),
including the progressive binary reduction of plus/times, the early stop
for boolean heads, and the piece/otherwise arity bookkeeping. -/
def readLoop (fuel : Nat) (elem : XMLToken) (node : AST) (s : Stream)
    (sbmlns : Option SBMLNS) : AST × Stream × List Err :=
  match fuel with
  | 0 => (node, s, [])
  | fuel + 1 =>
    if s.isGood && !((s.peekT).isEndFor elem) then
      let s := s.skipText
      if (s.peekT).isEndFor elem then (node, s, [])
      else
        let ty := node.getType
        let node := if ty = AST_PLUS || ty = AST_TIMES then reduceBinary node else node
        if ty = AST_CONSTANT_TRUE || ty = AST_CONSTANT_FALSE then (node, s, [])
        else
          let child := AST.new
          let (addC, mathErrs) :=
            if (s.peekT).getName = "math" && (s.peekT).isStart then
              (false, [Err.BadMathMLNodeType])
            else (true, [])
          let (child, s, e1) := readMathML fuel child s sbmlns
          let s := s.skipText
          let nextName := (s.peekT).getName
          let lamErrs :=
            if elem.getName = "lambda" && nextName ≠ "lambda" && nextName ≠ "bvar" &&
               !isMathMLNodeTag nextName then [Err.BadMathMLNodeType] else []
          if nextName = "math" then (node, s, mathErrs ++ e1 ++ lamErrs)
          else
            let node := if addC then node.addChild child else node
            let arityErrs :=
              if nextName = "piece" then
                if node.getNumChildren % 2 ≠ 0 then [Err.OpsNeedCorrectNumberOfArgs] else []
              else if nextName = "otherwise" then
                if node.getNumChildren % 2 ≠ 1 then [Err.OpsNeedCorrectNumberOfArgs] else []
              else []
            let s := if nextName = "piece" && s.isGood then (s.nextT).2 else s
            let (node, s, e2) := readLoop fuel elem node s sbmlns
            (node, s, mathErrs ++ e1 ++ lamErrs ++ arityErrs ++ e2)
    else (node, s, [])

/-- The trailing-annotation loop of the `semantics` branch. -/
def readSemLoop (fuel : Nat) (elem : XMLToken) (node : AST) (s : Stream) :
    AST × Stream × List Err :=
  match fuel with
  | 0 => (node, s, [])
  | fuel + 1 =>
    if s.isGood && !((s.peekT).isEndFor elem) then
      let element1 := s.peekT
      let (s, e1) :=
        if isMathMLNodeTag element1.getName && element1.isStart then
          (s.skipPastEnd element1, [Err.InvalidMathElement])
        else (s, [])
      if (s.peekT).getName = "annotation" || (s.peekT).getName = "annotation-xml" then
        let (ann, s) := consumeOne fuel s
        let node := node.addSemanticsAnnot ann
        let (node, s, e2) := readSemLoop fuel elem node s
        (node, s, e1 ++ e2)
      else
        let s := (s.nextT).2
        let (node, s, e2) := readSemLoop fuel elem node s
        (node, s, e1 ++ e2)
    else (node, s, [])

end

/-- The top-level `readMathML(XMLInputStream&, ...)` entry: handles the
`math` wrapper (or a bare `apply`/other construct), the legal-top-tag
check, and the trailing-garbage check, always returning a node. -/
def readMathMLTop (fuel : Nat) (s : Stream) (sbmlns : Option SBMLNS) :
    AST × Stream × List Err :=
  let s := s.skipText
  let node := AST.new
  let nm := (s.peekT).getName
  if nm = "math" then
    let (elem, s) := s.nextT
    if elem.isStart && elem.isEnd then (node, s, [])
    else
      let s := s.skipText
      let name1 := (s.peekT).getName
      let (node, s, e1) :=
        if isMathMLNodeTag name1 || name1 = "lambda" then
          readMathML fuel node s sbmlns
        else (node, s, [Err.BadMathMLNodeType])
      let s := s.skipText
      let element1 := s.peekT
      let s := if element1.getName = "" then s.skipPastEnd element1 else s
      let e2 :=
        if !(element1.isEndFor elem) && !(e1.contains Err.BadMathML) then
          [Err.InvalidMathElement]
        else []
      (node, s.skipPastEnd elem, e1 ++ e2)
  else if nm = "apply" then
    let (elem, s) := s.nextT
    if elem.isStart && elem.isEnd then (node, s, [])
    else
      let (node, s, e1) := readMathML fuel node s sbmlns
      (node, s.skipPastEnd elem, e1)
  else
    readMathML fuel node s sbmlns

/-- The internal state of `readMathMLFromString`: the parsed tree and the
error log accumulated by the parse (`SBMLErrorLog log` in the source). -/
def readMathMLFromStringCore (toks : List XMLToken) (sbmlns : Option SBMLNS) :
    AST × List Err :=
  let (node, _, errs) := readMathMLTop (2 * toks.length + 8) toks sbmlns
  (node, errs)

/-- readMathMLFromString: null in, null out; otherwise parse and discard
the whole result when the log holds errors but none with the tolerated
code 10218.  The caller's string is modelled as the token stream the XML
layer produces for it. -/
def readMathMLFromString (xml : Option (List XMLToken)) : Option AST :=
  match xml with
  | none => none
  | some toks =>
    let (ast, log) := readMathMLFromStringCore toks none
    if log.length > 0 && !(log.any (fun e => errCode e = 10218)) then none
    else some ast

/-- readMathMLFromStringWithNamespaces: as `readMathMLFromString` but the
stream carries an SBMLNamespaces object (default-constructed at the
default level and version, then extended with the caller's XML
namespaces, which the level/version pair does not depend on). -/
def readMathMLFromStringWithNamespaces (xml : Option (List XMLToken)) : Option AST :=
  match xml with
  | none => none
  | some toks =>
    let (ast, log) :=
      readMathMLFromStringCore toks (some ⟨SBML_DEFAULT_LEVEL, SBML_DEFAULT_VERSION⟩)
    if log.length > 0 && !(log.any (fun e => errCode e = 10218)) then none
    else some ast

/-- Output documents: an element with attributes (in writing order) and
content, character data, or a raw re-emitted token run (used for
semantics annotation subtrees). -/
inductive XNode where
  | elem (nm : String) (attrs : List (String × String)) (children : List XNode)
  | text (s : String)
  | raw (toks : List XMLToken)
deriving Repr

/-- Attribute names of an output element. -/
def XNode.attrNames : XNode → List String
  | .elem _ attrs _ => attrs.map Prod.fst
  | _ => []

/-- Children of an output element. -/
def XNode.childNodes : XNode → List XNode
  | .elem _ _ cs => cs
  | _ => []

mutual

/-- The token run an output node denotes on the wire: an element with no
content is the self-closing start/end token, otherwise a start tag, the
content, and the end tag. -/
def XNode.tokens : XNode → List XMLToken
  | .text s => [tkText s]
  | .raw ts => ts
  | .elem nm attrs cs =>
    if cs.isEmpty then [tkEmpty nm attrs]
    else tkStart nm attrs :: XNode.tokensList cs ++ [tkEnd nm]

/-- Concatenated token runs of a node list. -/
def XNode.tokensList : List XNode → List XMLToken
  | [] => []
  | c :: cs => XNode.tokens c ++ XNode.tokensList cs

end

/-- writeAttributes: the id, class and style attributes, when set. -/
def writeAttributes (node : AST) : List (String × String) :=
  (if node.getId ≠ "" then [("id", node.getId)] else []) ++
  (if node.getClass ≠ "" then [("class", node.getClass)] else []) ++
  (if node.getStyle ≠ "" then [("style", node.getStyle)] else [])

/-- writeStartEndElement: an empty element carrying the node's
id/class/style attributes. -/
def writeStartEndElement (nm : String) (node : AST) : XNode :=
  .elem nm (writeAttributes node) []

/-- writeCSymbol: a `csymbol` element with encoding "text", the fixed
definition URL of the kind (or the stored URL when the kind has no fixed
one; plugins are absent), and the name as content. -/
def writeCSymbol (node : AST) (_sbmlns : Option SBMLNS) : XNode :=
  let ty := node.getType
  let url :=
    if ty = AST_FUNCTION_DELAY then URL_DELAY
    else if ty = AST_NAME_TIME then URL_TIME
    else if ty = AST_NAME_AVOGADRO then URL_AVOGADRO
    else (node.getDefinitionURL).getD ""
  .elem "csymbol"
    (writeAttributes node ++ [("encoding", "text"), ("definitionURL", url)])
    (if node.getName ≠ "" then [.text (" " ++ node.getName ++ " ")] else [])

/-- writeCI: a `ci` element (or a csymbol for the time/delay/avogadro
kinds); emits nothing for other kinds, as the plugin fallback is absent. -/
def writeCI (node : AST) (sbmlns : Option SBMLNS) : List XNode :=
  let ty := node.getType
  if ty = AST_FUNCTION_DELAY || ty = AST_NAME_TIME || ty = AST_NAME_AVOGADRO then
    [writeCSymbol node sbmlns]
  else if ty = AST_NAME || ty = AST_FUNCTION then
    [.elem "ci"
      (writeAttributes node ++
        (match node.getDefinitionURL with
         | some u => [("definitionURL", u)]
         | none => []))
      (if node.getName ≠ "" then [.text (" " ++ node.getName ++ " ")] else [])]
  else []

/-- writeDouble: formats a real payload; the source splits the formatted
text at an exponent marker, but `doubleToString` never produces one in
the rational model, so the plain-text branch is always taken.  Returns
the attributes and content contributed to the surrounding `cn`. -/
def writeDouble (value : ℚ) : List (String × String) × List XNode :=
  ([], [.text (" " ++ doubleToString value ++ " ")])

/-- The string-level `writeENotation`: the e-notation type attribute and
`mantissa <sep/> exponent` content. -/
def writeEFormStrings (mantissa exponent : String) : List (String × String) × List XNode :=
  ([("type", "e-notation")],
   [.text (" " ++ mantissa ++ " "), .elem "sep" [] [], .text (" " ++ exponent ++ " ")])

/-- The numeric-level `writeENotation`: the source folds an exponent
marker discovered in the mantissa's text form into the stored exponent;
`doubleToString` never produces one in the rational model, so the stored
pair is emitted as-is. -/
def writeEForm (mantissa : ℚ) (exponent : Int) : List (String × String) × List XNode :=
  writeEFormStrings (doubleToString mantissa) (intToString exponent)

/-- writeCN: a number as a `cn` element (the NaN/infinity special cases
are unreachable in the rational model but kept for shape). -/
def writeCN (node : AST) (sbmlns : Option SBMLNS) : XNode :=
  if node.isNaN then writeStartEndElement "notanumber" node
  else if !(node.getType = AST_REAL_E) && node.isInfinity then
    writeStartEndElement "infinity" node
  else if node.isNegInfinity then
    .elem "apply" [] [.text " ", .elem "minus" [] [], .text " ",
      writeStartEndElement "infinity" node, .text " "]
  else
    let unitAttrs :=
      if node.getUnits ≠ "" then
        if sbmlns = none || (sbmlns.map SBMLNS.level) = some 3 then
          [("sbml:units", node.getUnits)]
        else []
      else []
    let (tyAttrs, content) :=
      if node.isInteger then
        ([("type", "integer")], [XNode.text (" " ++ intToString node.getInteger ++ " ")])
      else if node.isRational then
        ([("type", "rational")],
         [XNode.text (" " ++ intToString node.getNumerator ++ " "),
          XNode.elem "sep" [] [],
          XNode.text (" " ++ intToString node.getDenominator ++ " ")])
      else if node.getType = AST_REAL_E then
        writeEForm node.getMantissa node.getExponent
      else
        writeDouble node.getReal
    .elem "cn" (writeAttributes node ++ unitAttrs ++ tyAttrs) content

/-- writeConstant: the empty element for a constant kind. -/
def writeConstant (node : AST) : List XNode :=
  if node.getType = AST_CONSTANT_PI then [writeStartEndElement "pi" node]
  else if node.getType = AST_CONSTANT_TRUE then [writeStartEndElement "true" node]
  else if node.getType = AST_CONSTANT_FALSE then [writeStartEndElement "false" node]
  else if node.getType = AST_CONSTANT_E then [writeStartEndElement "exponentiale" node]
  else []

mutual

/-- writeNode: kind dispatch of the writer.  The `inSem` flag models the
function-static `inSemantics` boolean: every node written inside a
`writeSemantics` call sees it set.  Each writer function consumes one
unit of fuel per call; fuel exhaustion (never reached from `writeFuel`)
yields an empty default. -/
def writeNode (fuel : Nat) (inSem : Bool) (node : AST) (sbmlns : Option SBMLNS) :
    List XNode :=
  match fuel with
  | 0 => []
  | fuel + 1 =>
    if node.getSemanticsFlag && !inSem then [writeSemantics fuel node sbmlns]
    else if node.isNumber then [writeCN node sbmlns]
    else if node.isName then writeCI node sbmlns
    else if node.isConstant then writeConstant node
    else if node.isOperator then [writeOperator fuel inSem node sbmlns]
    else if node.isLambda then [writeLambda fuel inSem node sbmlns]
    else if node.isPiecewise then [writePiecewise fuel inSem node sbmlns]
    else if !node.isUnknown then [writeFunction fuel inSem node sbmlns]
    else []

/-- writeOperator: `apply`, the operator tag, then the operator
arguments. -/
def writeOperator (fuel : Nat) (inSem : Bool) (node : AST) (sbmlns : Option SBMLNS) :
    XNode :=
  match fuel with
  | 0 => .elem "apply" [] []
  | fuel + 1 =>
    let head :=
      if node.getType = AST_PLUS then [writeStartEndElement "plus" node]
      else if node.getType = AST_TIMES then [writeStartEndElement "times" node]
      else if node.getType = AST_MINUS then [writeStartEndElement "minus" node]
      else if node.getType = AST_DIVIDE then [writeStartEndElement "divide" node]
      else if node.getType = AST_POWER then [writeStartEndElement "power" node]
      else []
    .elem "apply" [] (head ++ writeOperatorArgs fuel inSem node sbmlns)

/-- writeOperatorArgs: for a Plus/Times node with at most two children the
same-kind children are recursively unrolled into siblings; with more than
two children every child is emitted flatly; other operators emit left and
right. -/
def writeOperatorArgs (fuel : Nat) (inSem : Bool) (node : AST) (sbmlns : Option SBMLNS) :
    List XNode :=
  match fuel with
  | 0 => []
  | fuel + 1 =>
    let ty := node.getType
    let left := node.getLeftChild
    let right := node.getRightChild
    let num := node.getNumChildren
    if ty = AST_PLUS || ty = AST_TIMES then
      if num ≤ 2 then
        (match left with
         | some l =>
           if l.getType = ty then writeOperatorArgs fuel inSem l sbmlns
           else writeNode fuel inSem l sbmlns
         | none => []) ++
        (match right with
         | some r =>
           if r.getType = ty then writeOperatorArgs fuel inSem r sbmlns
           else writeNode fuel inSem r sbmlns
         | none => [])
      else
        (node.children.map (fun c => writeNode fuel inSem c sbmlns)).flatten
    else
      (match left with
       | some l => writeNode fuel inSem l sbmlns
       | none => []) ++
      (match right with
       | some r => writeNode fuel inSem r sbmlns
       | none => [])

/-- writeFunctionLog: wraps the first child in `logbase` when more than
one child is present; with a single child nothing but the (absent) right
child is written, exactly as in the source. -/
def writeFunctionLog (fuel : Nat) (inSem : Bool) (node : AST) (sbmlns : Option SBMLNS) :
    List XNode :=
  match fuel with
  | 0 => []
  | fuel + 1 =>
    (if node.getNumChildren > 1 then
      [XNode.elem "logbase" []
        (match node.getLeftChild with
         | some l => writeNode fuel inSem l sbmlns
         | none => [])]
     else []) ++
    (match node.getRightChild with
     | some r => writeNode fuel inSem r sbmlns
     | none => [])

/-- writeFunctionRoot: wraps the first child in `degree` when more than
one child is present; a single child is emitted bare (and, as in the
source, without the namespace context). -/
def writeFunctionRoot (fuel : Nat) (inSem : Bool) (node : AST) (sbmlns : Option SBMLNS) :
    List XNode :=
  match fuel with
  | 0 => []
  | fuel + 1 =>
    (if node.getNumChildren > 1 then
      [XNode.elem "degree" []
        (match node.getLeftChild with
         | some l => writeNode fuel inSem l sbmlns
         | none => [])]
     else if node.getNumChildren = 1 then
      (match node.getChild 0 with
       | some c => writeNode fuel inSem c none
       | none => [])
     else []) ++
    (match node.getRightChild with
     | some r => writeNode fuel inSem r sbmlns
     | none => [])

/-- writeFunction: `apply`, the function head (a `ci`, `csymbol`, or core
table name), then the positional arguments with the log/root special
cases. -/
def writeFunction (fuel : Nat) (inSem : Bool) (node : AST) (sbmlns : Option SBMLNS) :
    XNode :=
  match fuel with
  | 0 => .elem "apply" [] []
  | fuel + 1 =>
    let ty := node.getType
    let inner :=
      if astCode ty ≥ astCode AST_FUNCTION && astCode ty < astCode AST_UNKNOWN then
        let head :=
          if ty = AST_FUNCTION then writeCI node sbmlns
          else if ty = AST_FUNCTION_DELAY || ty = AST_CSYMBOL_FUNCTION then
            [writeCSymbol node sbmlns]
          else
            if astCode ty ≤ astCode AST_RELATIONAL_NEQ then
              [writeStartEndElement
                (MATHML_FUNCTIONS.getD (astCode ty - astCode AST_FUNCTION_ABS) "") node]
            else
              [writeStartEndElement "" node]
        let args :=
          if ty = AST_FUNCTION_LOG then writeFunctionLog fuel inSem node sbmlns
          else if ty = AST_FUNCTION_ROOT then writeFunctionRoot fuel inSem node sbmlns
          else (node.children.map (fun c => writeNode fuel inSem c sbmlns)).flatten
        head ++ args
      else []
    .elem "apply" [] inner

/-- writeLambda: every child but the last in a `bvar` wrapper and the last
as the body, unless the last child itself is flagged as a bvar, in which
case all children are wrapped and no body is emitted. -/
def writeLambda (fuel : Nat) (inSem : Bool) (node : AST) (sbmlns : Option SBMLNS) :
    XNode :=
  match fuel with
  | 0 => .elem "lambda" [] []
  | fuel + 1 =>
    let n := node.getNumChildren - 1
    let lastIsBvar := ((node.getChild n).map AST.isBvar).getD false
    let bvars := if lastIsBvar then n + 1 else n
    let wrapped :=
      ((node.children.take bvars).map
        (fun c => XNode.elem "bvar" [] (writeNode fuel inSem c sbmlns)))
    let body :=
      if lastIsBvar then []
      else
        match node.getChild bvars with
        | some c => writeNode fuel inSem c sbmlns
        | none => []
    .elem "lambda" [] (wrapped ++ body)

/-- Pairing loop of writePiecewise: consecutive child pairs wrapped in
`piece` elements. -/
def writePieces (fuel : Nat) (inSem : Bool) (cs : List AST) (sbmlns : Option SBMLNS) :
    List XNode :=
  match fuel with
  | 0 => []
  | fuel + 1 =>
    match cs with
    | a :: b :: rest =>
      XNode.elem "piece" []
          (writeNode fuel inSem a sbmlns ++ writeNode fuel inSem b sbmlns)
        :: writePieces fuel inSem rest sbmlns
    | _ => []

/-- writePiecewise: pairs of children as `piece` elements, a leftover odd
final child as `otherwise`. -/
def writePiecewise (fuel : Nat) (inSem : Bool) (node : AST) (sbmlns : Option SBMLNS) :
    XNode :=
  match fuel with
  | 0 => .elem "piecewise" [] []
  | fuel + 1 =>
    let numChildren := node.getNumChildren
    let numPieces := if numChildren % 2 ≠ 0 then numChildren - 1 else numChildren
    let pieces := writePieces fuel inSem (node.children.take numPieces) sbmlns
    let rest :=
      if numPieces < numChildren then
        [XNode.elem "otherwise" []
          (match node.getChild numPieces with
           | some c => writeNode fuel inSem c sbmlns
           | none => [])]
      else []
    .elem "piecewise" [] (pieces ++ rest)

/-- writeSemantics: the node's own serialization wrapped in a `semantics`
element carrying the definitionURL, followed by the attached annotation
subtrees re-emitted verbatim. -/
def writeSemantics (fuel : Nat) (node : AST) (sbmlns : Option SBMLNS) : XNode :=
  match fuel with
  | 0 => .elem "semantics" [] []
  | fuel + 1 =>
    .elem "semantics"
      (writeAttributes node ++
        (match node.getDefinitionURL with
         | some u => [("definitionURL", u)]
         | none => []))
      (writeNode fuel true node sbmlns ++ (node.getSemanticAnnots).map XNode.raw)

end

/-- MathML namespace URI. -/
def MATHML_URI : String := "http://www.w3.org/1998/Math/MathML"

/-- SBMLNamespaces::getSBMLNamespaceURI.  The class is not under src/;
modelled from the documented URI scheme of the host format. -/
def sbmlNamespaceURI (level version : Nat) : String :=
  "http://www.sbml.org/sbml/level" ++ toString level ++ "/version" ++ toString version ++
    (if level ≥ 3 then "/core" else "")

/-- writeMathML: the `math` wrapper with the MathML namespace declaration,
the host-schema namespace when units occur in the tree, and the node's
serialization. -/
def writeMathML (fuel : Nat) (node : Option AST) (sbmlns : Option SBMLNS) : XNode :=
  let unitAttrs :=
    match node with
    | some n =>
      if n.hasUnits then
        let level := match sbmlns with | some ns => ns.level | none => SBML_DEFAULT_LEVEL
        let version := match sbmlns with | some ns => ns.version | none => SBML_DEFAULT_VERSION
        [("xmlns:sbml", sbmlNamespaceURI level version)]
      else []
    | none => []
  .elem "math" ([("xmlns", MATHML_URI)] ++ unitAttrs)
    (match node with
     | some n => writeNode fuel false n sbmlns
     | none => [])

mutual

/-- Number of nodes of an AST, for fuel bounds. -/
def astSize : AST → Nat
  | .node _ cs _ _ _ _ _ _ _ _ _ _ _ _ _ => 1 + astSizeList cs

/-- Node count of a child list. -/
def astSizeList : List AST → Nat
  | [] => 0
  | c :: cs => astSize c + astSizeList cs

end

/-- Fuel that certainly dominates the recursion depth of a write. -/
def writeFuel (node : AST) : Nat := 4 * astSize node + 8

/-- writeMathMLWithNamespaceToString: null when the node or the namespace
context is null, otherwise the written token run (the model of the
produced string). -/
def writeMathMLWithNamespaceToString (node : Option AST) (sbmlns : Option SBMLNS) :
    Option (List XMLToken) :=
  match node, sbmlns with
  | some n, some ns => some ((writeMathML (writeFuel n) (some n) (some ns)).tokens)
  | _, _ => none

/-- writeMathMLToString: delegates with a default-constructed namespace
context. -/
def writeMathMLToString (node : Option AST) : Option (List XMLToken) :=
  writeMathMLWithNamespaceToString node (some ⟨SBML_DEFAULT_LEVEL, SBML_DEFAULT_VERSION⟩)

/-- The two-argument writeMathMLToStdString: the empty string (empty token
run) when the node or the namespace context is null. -/
def writeMathMLToStdString2 (node : Option AST) (sbmlns : Option SBMLNS) :
    List XMLToken :=
  match node, sbmlns with
  | some n, some ns => (writeMathML (writeFuel n) (some n) (some ns)).tokens
  | _, _ => []

/-- The one-argument writeMathMLToStdString: delegates with a
default-constructed namespace context. -/
def writeMathMLToStdString (node : Option AST) : List XMLToken :=
  writeMathMLToStdString2 node (some ⟨SBML_DEFAULT_LEVEL, SBML_DEFAULT_VERSION⟩)

/-! Helper nodes and lemmas for the claim theorems. -/

/-- An integer literal node as a host-library caller would build it. -/
def intNode (i : Int) : AST := AST.new.setValueInt i

/-- A Plus node built programmatically with three children (the n-ary
construction). -/
def flatPlus123 : AST :=
  (AST.newOfType AST_PLUS).setChildren [intNode 1, intNode 2, intNode 3]

/-- A Plus node built as right-nested binaries: 1 + (2 + 3). -/
def rightPlus123 : AST :=
  (AST.newOfType AST_PLUS).setChildren
    [intNode 1, (AST.newOfType AST_PLUS).setChildren [intNode 2, intNode 3]]

/-- The left-nested binary chain (1 + 2) + 3 the reader produces. -/
def chainPlus123 : AST :=
  (AST.newOfType AST_PLUS).setChildren
    [(AST.newOfType AST_PLUS).setChildren [intNode 1, intNode 2], intNode 3]

/-- The transformation one iteration of the reader's child loop applies to
the node under construction: the binary reduction when a Plus/Times node
already holds two children, then the freshly read child appended
(`readLoop`, mirroring MathML.cpp's `reduceBinary(node)` before the child
read and `node.addChild(child)` after it). -/
def readAbsorb (node c : AST) : AST :=
  let ty := node.getType
  let node := if ty = AST_PLUS || ty = AST_TIMES then reduceBinary node else node
  node.addChild c

/-- Claim-side description of the children list that absorbing a sequence
of operands into a fresh Plus/Times node produces: once two operands are
present, each further operand left-nests the previous contents into a
fresh binary node of the same kind. -/
def binChainList (t : ASTType) (cs : List AST) : List AST :=
  cs.foldl
    (fun acc c =>
      match acc with
      | [a, b] => [(AST.newOfType t).setChildren [a, b], c]
      | _ => acc ++ [c])
    []

theorem AST.children_setChildren (x : AST) (cs : List AST) :
    (x.setChildren cs).children = cs := by
  cases x <;> rfl

theorem AST.getType_setChildren (x : AST) (cs : List AST) :
    (x.setChildren cs).getType = x.getType := by
  cases x <;> rfl

theorem AST.children_newOfType (t : ASTType) : (AST.newOfType t).children = [] := rfl

theorem AST.getType_newOfType (t : ASTType) : (AST.newOfType t).getType = t := rfl

theorem AST.getNumChildren_eq (x : AST) : x.getNumChildren = x.children.length := rfl

theorem AST.addChild_eq (x : AST) (c : AST) :
    x.addChild c = x.setChildren (x.children ++ [c]) := rfl

theorem AST.setChildren_setChildren (x : AST) (cs ds : List AST) :
    (x.setChildren cs).setChildren ds = x.setChildren ds := by
  cases x <;> rfl

/-- One step of `binChainList`: with exactly two operands accumulated, a
further operand left-nests them into a fresh binary node of the same
kind; otherwise the operand is appended. -/
def binChainStep (t : ASTType) (acc : List AST) (c : AST) : List AST :=
  match acc with
  | [a, b] => [(AST.newOfType t).setChildren [a, b], c]
  | _ => acc ++ [c]

theorem binChainList_eq_foldl (t : ASTType) (cs : List AST) :
    binChainList t cs = cs.foldl (binChainStep t) [] := by
  unfold binChainList binChainStep
  rfl

theorem readAbsorb_step (t : ASTType) (ht : t = AST_PLUS ∨ t = AST_TIMES)
    (acc : List AST) (c : AST) :
    readAbsorb ((AST.newOfType t).setChildren acc) c =
      (AST.newOfType t).setChildren (binChainStep t acc c) := by
  have hty : ((AST.newOfType t).setChildren acc).getType = t := by
    rw [AST.getType_setChildren, AST.getType_newOfType]
  have hcond : (decide (((AST.newOfType t).setChildren acc).getType = AST_PLUS) ||
      decide (((AST.newOfType t).setChildren acc).getType = AST_TIMES)) = true := by
    rcases ht with h | h <;> rw [hty, h] <;> simp
  match acc with
  | [] =>
    simp [readAbsorb, hcond, reduceBinary, AST.getNumChildren_eq,
      AST.children_setChildren, AST.addChild_eq, AST.setChildren_setChildren, binChainStep]
  | [a] =>
    simp [readAbsorb, hcond, reduceBinary, AST.getNumChildren_eq,
      AST.children_setChildren, AST.addChild_eq, AST.setChildren_setChildren, binChainStep]
  | [a, b] =>
    simp [readAbsorb, hcond, reduceBinary, AST.getNumChildren_eq,
      AST.children_setChildren, AST.addChild_eq, AST.setChildren_setChildren,
      AST.prependChild, hty, ht, binChainStep]
  | a :: b :: c' :: rest =>
    simp [readAbsorb, hcond, reduceBinary, AST.getNumChildren_eq,
      AST.children_setChildren, AST.addChild_eq, AST.setChildren_setChildren, binChainStep]

theorem readAbsorb_foldl_aux (t : ASTType) (ht : t = AST_PLUS ∨ t = AST_TIMES) :
    ∀ (cs : List AST) (acc : List AST),
      List.foldl readAbsorb ((AST.newOfType t).setChildren acc) cs =
        (AST.newOfType t).setChildren (List.foldl (binChainStep t) acc cs)
  | [], acc => rfl
  | c :: cs, acc => by
    rw [List.foldl_cons, List.foldl_cons, readAbsorb_step t ht,
      readAbsorb_foldl_aux t ht cs]

theorem binChainStep_length_two (t : ASTType) :
    ∀ (cs : List AST) (acc : List AST), acc.length = 2 →
      (List.foldl (binChainStep t) acc cs).length = 2
  | [], acc, h => h
  | c :: cs, acc, h => by
    match acc, h with
    | [a, b], _ =>
      rw [List.foldl_cons]
      exact binChainStep_length_two t cs _ rfl

/-- C1 counterexample: the Plus node built programmatically with the
three children 1, 2, 3 serializes flat, but re-parsing that output yields
the left-nested binary chain (1+2)+3, not the original flat node, so
serialize-then-parse is not a fixed point for flat n-ary nodes. -/
theorem C1_counterexample :
    readMathMLFromString (some (writeMathMLToStdString (some flatPlus123))) =
      some chainPlus123 ∧
    chainPlus123 ≠ flatPlus123 := by
  refine ⟨rfl, ?_⟩
  intro h
  have := congrArg (fun a => a.children.length) h
  simp [chainPlus123, flatPlus123, AST.children_setChildren] at this

/-- C1 (amended): for every Plus or Times node holding more than two
children the writer emits all children flatly under one apply, but
re-parsing that output yields not the same flat node: because the reader
applies the binary reduction whenever a Plus/Times node already holding
two children reads another child, the absorbed operands always form a
left-nested binary chain and the re-parsed node holds exactly two
children.  Concretely, both the flat three-child Plus and the
right-nested binary build serialize flattened and re-parse to the same
left-nested chain, which differs from the flat node. -/
theorem C1_nary_roundtrip_amended :
    (∀ (fuel : Nat) (inSem : Bool) (node : AST) (sbmlns : Option SBMLNS),
      (node.getType = AST_PLUS ∨ node.getType = AST_TIMES) →
      2 < node.children.length →
      writeOperatorArgs (fuel + 1) inSem node sbmlns =
        (node.children.map (fun c => writeNode fuel inSem c sbmlns)).flatten) ∧
    (∀ t : ASTType, (t = AST_PLUS ∨ t = AST_TIMES) → ∀ cs : List AST,
      List.foldl readAbsorb (AST.newOfType t) cs =
        (AST.newOfType t).setChildren (binChainList t cs)) ∧
    (∀ t : ASTType, (t = AST_PLUS ∨ t = AST_TIMES) → ∀ cs : List AST, 2 ≤ cs.length →
      (List.foldl readAbsorb (AST.newOfType t) cs).getNumChildren = 2) ∧
    readMathMLFromString (some (writeMathMLToStdString (some flatPlus123))) =
      some chainPlus123 ∧
    readMathMLFromString (some (writeMathMLToStdString (some rightPlus123))) =
      some chainPlus123 ∧
    readMathMLFromString (some (writeMathMLToStdString (some chainPlus123))) =
      some chainPlus123 := by
  refine ⟨?_, ?_, ?_, rfl, rfl, rfl⟩
  · intro fuel inSem node sbmlns ht hlen
    have hcond : (decide (node.getType = AST_PLUS) ||
        decide (node.getType = AST_TIMES)) = true := by
      rcases ht with h | h <;> simp [h]
    have hnum : ¬ node.getNumChildren ≤ 2 := by
      rw [AST.getNumChildren_eq]; omega
    simp [writeOperatorArgs, hcond, hnum]
  · intro t ht cs
    rw [binChainList_eq_foldl]
    exact readAbsorb_foldl_aux t ht cs []
  · intro t ht cs hlen
    match cs, hlen with
    | c1 :: c2 :: rest, _ =>
      have h1 : List.foldl readAbsorb (AST.newOfType t) (c1 :: c2 :: rest) =
          (AST.newOfType t).setChildren
            (List.foldl (binChainStep t) [] (c1 :: c2 :: rest)) :=
        readAbsorb_foldl_aux t ht (c1 :: c2 :: rest) []
      rw [h1, AST.getNumChildren_eq, AST.children_setChildren, List.foldl_cons,
        List.foldl_cons]
      exact binChainStep_length_two t rest [c1, c2] rfl

/-- Witness for the amended C1 at the concrete three-child Plus node and
operand list. -/
theorem C1_nary_roundtrip_amended_witness :
    writeOperatorArgs 1 false flatPlus123 none =
      (flatPlus123.children.map (fun c => writeNode 0 false c none)).flatten ∧
    List.foldl readAbsorb (AST.newOfType AST_PLUS) [intNode 1, intNode 2, intNode 3] =
      (AST.newOfType AST_PLUS).setChildren
        (binChainList AST_PLUS [intNode 1, intNode 2, intNode 3]) ∧
    (List.foldl readAbsorb (AST.newOfType AST_PLUS)
      [intNode 1, intNode 2, intNode 3]).getNumChildren = 2 :=
  ⟨C1_nary_roundtrip_amended.1 0 false flatPlus123 none (Or.inl rfl) (by decide),
   C1_nary_roundtrip_amended.2.1 AST_PLUS (Or.inl rfl) [intNode 1, intNode 2, intNode 3],
   C1_nary_roundtrip_amended.2.2.1 AST_PLUS (Or.inl rfl)
     [intNode 1, intNode 2, intNode 3] (by decide)⟩

/-- Token stream whose parse logs both the tolerated child-count code
10218 (an `otherwise` with two children) and a different error (the
unknown element `foo`): `<math><piecewise><otherwise><cn> 2 </cn>
<cn> 3 </cn></otherwise><foo/></piecewise></math>`. -/
def mixedLogToks : List XMLToken :=
  [tkStart "math" [], tkStart "piecewise" [],
   tkStart "otherwise" [], tkStart "cn" [], tkText " 2 ", tkEnd "cn",
   tkStart "cn" [], tkText " 3 ", tkEnd "cn", tkEnd "otherwise",
   tkEmpty "foo" [],
   tkEnd "piecewise", tkEnd "math"]

/-- C2 counterexample: on `mixedLogToks` the diagnostic log contains an
error whose code is not 10218 (DisallowedMathMLSymbol for `<foo/>`), yet
`readMathMLFromString` does not return null, because a 10218 entry (the
otherwise child-count error) is also present and the source only checks
`log.contains(10218)`. -/
theorem C2_counterexample :
    (readMathMLFromString (some mixedLogToks)).isSome = true ∧
    Err.OpsNeedCorrectNumberOfArgs ∈ (readMathMLFromStringCore mixedLogToks none).2 ∧
    Err.DisallowedMathMLSymbol ∈ (readMathMLFromStringCore mixedLogToks none).2 ∧
    errCode Err.DisallowedMathMLSymbol ≠ 10218 := by
  refine ⟨rfl, ?_, ?_, by decide⟩
  · have h : (readMathMLFromStringCore mixedLogToks none).2 =
        [Err.OpsNeedCorrectNumberOfArgs, Err.DisallowedMathMLSymbol] := rfl
    rw [h]; simp
  · have h : (readMathMLFromStringCore mixedLogToks none).2 =
        [Err.OpsNeedCorrectNumberOfArgs, Err.DisallowedMathMLSymbol] := rfl
    rw [h]; simp

/-- C2 (amended): the convenience entry point returns null exactly when
the parse's diagnostic log is non-empty and contains no error with the
tolerated code 10218; equivalently, one 10218 entry preserves the
best-effort tree even when other errors are present (the lower-level
reader is total by construction in the model: it always yields a tree
alongside the log). -/
theorem C2_strictness_amended :
    ∀ toks : List XMLToken,
      readMathMLFromString (some toks) = none ↔
        ((readMathMLFromStringCore toks none).2 ≠ [] ∧
          ∀ e ∈ (readMathMLFromStringCore toks none).2, errCode e ≠ 10218) := by
  intro toks
  rcases h : readMathMLFromStringCore toks none with ⟨ast, log⟩
  simp only [readMathMLFromString, h]
  split_ifs with hc
  · simp only [Bool.and_eq_true, decide_eq_true_eq, Bool.not_eq_true',
      List.any_eq_false, decide_eq_false_iff_not] at hc
    simp only [true_iff]
    refine ⟨?_, hc.2⟩
    intro hnil
    rw [hnil] at hc
    simp at hc
  · simp only [Bool.and_eq_true, decide_eq_true_eq, Bool.not_eq_true',
      List.any_eq_false, decide_eq_false_iff_not] at hc
    push_neg at hc
    constructor
    · intro hsome
      simp at hsome
    · intro ⟨hnil, hall⟩
      rcases (hc (by simpa using List.length_pos.2 hnil)) with ⟨e, he, hcode⟩
      exact absurd hcode (hall e he)

/-- C6: arity validation at an apply head.  For an apply element whose
first child is a cn element (which the reader always parses to a number
node), the reader logs BadMathML and returns immediately: the returned
subtree is the bare number with no children, and the remaining stream
still begins at the tokens following the cn element, so no further child
of this apply is read. -/
theorem C6_apply_number_head (fuel : Nat) (t : String) (rest : List XMLToken)
    (sbmlns : Option SBMLNS) :
    readMathML (fuel + 2) AST.new
        (tkStart "apply" [] :: tkStart "cn" [] :: tkText t :: tkEnd "cn" :: rest) sbmlns =
      (AST.new.setValueReal (istreamDouble t).1, rest,
        (if (istreamDouble t).2 then [Err.FailedMathMLReadOfDouble] else []) ++
          [Err.BadMathML]) ∧
    (AST.new.setValueReal (istreamDouble t).1).children = [] ∧
    Err.BadMathML ∈
      ((if (istreamDouble t).2 then [Err.FailedMathMLReadOfDouble] else []) ++
        [Err.BadMathML]) := by
  refine ⟨?_, rfl, by simp⟩
  rcases h : istreamDouble t with ⟨v, f⟩
  have hel1 : mathmlElementIndex "apply" = some 4 := rfl
  have hel2 : mathmlElementIndex "cn" = some 20 := rfl
  cases f <;>
    simp [readMathML, readTail, setType, setTypeCN, checkFunctionArgs, hel1, hel2, h,
      Stream.skipText, Stream.peekT, Stream.nextT, Stream.skipPastEnd, Stream.isGood,
      XMLToken.isText, XMLToken.getName, XMLToken.isEndFor, XMLToken.readInto,
      XMLToken.getCharacters, tkStart, tkText, tkEnd, isValidInternalUnitSId,
      AST.new, AST.setValueReal, AST.getType, AST.isName, AST.isNumber,
      AST.getNumChildren_eq, AST.children, AST.isInfinity, AST.isNegInfinity,
      AST.setUnits]

/-- C5: numeric fidelity of cn parsing.  Parsing `<cn type="integer">12345</cn>`
yields an integer-kind leaf (no children) with value 12345; parsing
`<cn type="rational">12342<sep/>2342342</cn>` yields numerator 12342 and
denominator 2342342; parsing `<cn type="e-notation">12.3<sep/>5</cn>`
yields mantissa 12.3 (the exact rational 123/10 in the double model) and
exponent 5.  In each case the trailing text is consumed, no diagnostic is
posted, and the node is exactly the corresponding leaf. -/
theorem C5_cn_numeric_fidelity :
    setTypeCN AST.new (tkStart "cn" [("type", "integer")])
        [tkText "12345", tkEnd "cn"] none =
      (AST.new.setValueInt 12345, [tkEnd "cn"], []) ∧
    setTypeCN AST.new (tkStart "cn" [("type", "rational")])
        [tkText "12342", tkEmpty "sep" [], tkText "2342342", tkEnd "cn"] none =
      (AST.new.setValueRational 12342 2342342, [tkEnd "cn"], []) ∧
    setTypeCN AST.new (tkStart "cn" [("type", "e-notation")])
        [tkText "12.3", tkEmpty "sep" [], tkText "5", tkEnd "cn"] none =
      (AST.new.setValueE (123 / 10 : ℚ) 5, [tkEnd "cn"], []) ∧
    (AST.new.setValueInt 12345).children = [] := by
  refine ⟨rfl, rfl, ?_, rfl⟩
  have hm : (istreamDouble "12.3").1 = (123 / 10 : ℚ) := by
    have h : istreamDouble "12.3" =
        ((if false then (-1 : ℚ) else 1) *
          ((digitsToNat ['1', '2'] : ℚ) + (digitsToNat ['3'] : ℚ) / (10 : ℚ) ^ (1 : Nat)),
         false) := rfl
    rw [h]
    norm_num [show digitsToNat ['1', '2'] = 12 from rfl, show digitsToNat ['3'] = 3 from rfl]
  calc setTypeCN AST.new (tkStart "cn" [("type", "e-notation")])
          [tkText "12.3", tkEmpty "sep" [], tkText "5", tkEnd "cn"] none
      = (AST.new.setValueE ((istreamDouble "12.3").1) 5, [tkEnd "cn"], []) := rfl
    _ = (AST.new.setValueE (123 / 10 : ℚ) 5, [tkEnd "cn"], []) := by rw [hm]

/-- Token stream of `<math><apply><log/><ci> x </ci></apply></math>`. -/
def logExampleToks : List XMLToken :=
  [tkStart "math" [], tkStart "apply" [], tkEmpty "log" [],
   tkStart "ci" [], tkText " x ", tkEnd "ci", tkEnd "apply", tkEnd "math"]

/-- Token stream of `<math><apply><root/><ci> a </ci></apply></math>`. -/
def rootExampleToks : List XMLToken :=
  [tkStart "math" [], tkStart "apply" [], tkEmpty "root" [],
   tkStart "ci" [], tkText " a ", tkEnd "ci", tkEnd "apply", tkEnd "math"]

/-- C3: default-argument synthesis.  Every log (resp. root) node holding
exactly one child has an integer literal 10 (resp. 2) with units
"dimensionless" prepended by `checkFunctionArgs`, which the reader applies
to every parsed node, so the result holds two children with the
synthesized default first; concretely, `<apply><log/><ci>x</ci></apply>`
parses to a two-child Log node with the base-10 literal first, and
`<apply><root/><ci>a</ci></apply>` to a two-child Root node with the
degree-2 literal first. -/
theorem C3_default_argument_synthesis :
    (∀ node : AST, node.getNumChildren = 1 →
      (node.getType = AST_FUNCTION_LOG →
        checkFunctionArgs node =
          node.prependChild ((AST.new.setValueInt 10).setUnits "dimensionless") ∧
        (checkFunctionArgs node).getNumChildren = 2) ∧
      (node.getType = AST_FUNCTION_ROOT →
        checkFunctionArgs node =
          node.prependChild ((AST.new.setValueInt 2).setUnits "dimensionless") ∧
        (checkFunctionArgs node).getNumChildren = 2)) ∧
    readMathMLFromString (some logExampleToks) =
      some ((AST.newOfType AST_FUNCTION_LOG).setChildren
        [(AST.new.setValueInt 10).setUnits "dimensionless", AST.new.setName "x"]) ∧
    readMathMLFromString (some rootExampleToks) =
      some ((AST.newOfType AST_FUNCTION_ROOT).setChildren
        [(AST.new.setValueInt 2).setUnits "dimensionless", AST.new.setName "a"]) := by
  refine ⟨?_, rfl, rfl⟩
  intro node h1
  constructor
  · intro ht
    constructor
    · simp [checkFunctionArgs, h1, ht]
    · cases node with
      | node t cs i r d e n u du iid c s b f a =>
        simp [AST.getNumChildren_eq] at h1
        simp [checkFunctionArgs, AST.getNumChildren_eq, AST.prependChild, AST.setChildren,
          AST.children, h1, ht] at *
  · intro ht
    constructor
    · simp [checkFunctionArgs, h1, ht]
    · cases node with
      | node t cs i r d e n u du iid c s b f a =>
        simp [AST.getNumChildren_eq] at h1
        simp [checkFunctionArgs, AST.getNumChildren_eq, AST.prependChild, AST.setChildren,
          AST.children, h1, ht] at *

/-- Witness for C3 at a concrete one-child log node. -/
theorem C3_default_argument_synthesis_witness :
    checkFunctionArgs ((AST.newOfType AST_FUNCTION_LOG).setChildren [AST.new.setName "x"]) =
      ((AST.newOfType AST_FUNCTION_LOG).setChildren [AST.new.setName "x"]).prependChild
        ((AST.new.setValueInt 10).setUnits "dimensionless") ∧
    (checkFunctionArgs
      ((AST.newOfType AST_FUNCTION_LOG).setChildren [AST.new.setName "x"])).getNumChildren = 2 :=
  (C3_default_argument_synthesis.1
    ((AST.newOfType AST_FUNCTION_LOG).setChildren [AST.new.setName "x"]) rfl).1 rfl

/-- C4: csymbol resolution.  A csymbol whose definitionURL resolves in the
registry to a kind valid for the active level/version gets that kind (the
SBML time URL yields the Time kind, with the trimmed trailing text as its
name and no diagnostic); an unrecognized URL under an active namespace
context logs the bad-csymbol diagnostic and leaves the kind unresolved;
an unrecognized URL with no namespace context falls back to the generic
csymbol-function kind with the URL preserved in definitionURL and no
diagnostic. -/
theorem C4_csymbol_resolution :
    (∀ (node : AST) (txt : String) (rest : Stream) (sbmlns : Option SBMLNS),
      isValidCSymbol sbmlns AST_NAME_TIME = true →
      setTypeCI node
          (tkStart "csymbol" [("encoding", "text"), ("definitionURL", URL_TIME)])
          (tkText txt :: rest) sbmlns =
        ((node.setType AST_NAME_TIME).setName (trim txt), rest, [])) ∧
    (∀ (node : AST) (url txt : String) (rest : Stream) (ns : SBMLNS),
      registryGetType url = AST_UNKNOWN →
      setTypeCI node (tkStart "csymbol" [("definitionURL", url)])
          (tkText txt :: rest) (some ns) =
        (node.setName (trim txt), rest, [Err.BadCsymbolDefinitionURLValue])) ∧
    (∀ (node : AST) (url txt : String) (rest : Stream),
      registryGetType url = AST_UNKNOWN →
      setTypeCI node (tkStart "csymbol" [("definitionURL", url)])
          (tkText txt :: rest) none =
        (((node.setType AST_CSYMBOL_FUNCTION).setDefinitionURL url).setName (trim txt),
         rest, [])) := by
  refine ⟨?_, ?_, ?_⟩
  · intro node txt rest sbmlns hvalid
    have hl : List.lookup "definitionURL" [("encoding", "text"), ("definitionURL", URL_TIME)] =
        some URL_TIME := rfl
    simp [setTypeCI, XMLToken.readInto, XMLToken.getName, tkStart, tkText, Stream.nextT,
      XMLToken.getCharacters, hvalid, hl, astCode,
      show registryGetType URL_TIME = AST_NAME_TIME from rfl]
  · intro node url txt rest ns hurl
    have hl : List.lookup "definitionURL" [("definitionURL", url)] = some url := rfl
    simp [setTypeCI, XMLToken.readInto, XMLToken.getName, tkStart, tkText, Stream.nextT,
      XMLToken.getCharacters, hurl, hl]
  · intro node url txt rest hurl
    have hl : List.lookup "definitionURL" [("definitionURL", url)] = some url := rfl
    simp [setTypeCI, XMLToken.readInto, XMLToken.getName, tkStart, tkText, Stream.nextT,
      XMLToken.getCharacters, hurl, hl]

/-- Witness for C4 at concrete inputs: the time URL under no namespace
context and under a Level 3 Version 2 context, and an unknown URL both
with and without a namespace context. -/
theorem C4_csymbol_resolution_witness :
    setTypeCI AST.new
        (tkStart "csymbol" [("encoding", "text"), ("definitionURL", URL_TIME)])
        [tkText " t ", tkEnd "csymbol"] (some ⟨3, 2⟩) =
      ((AST.new.setType AST_NAME_TIME).setName "t", [tkEnd "csymbol"], []) ∧
    setTypeCI AST.new (tkStart "csymbol" [("definitionURL", "http://x")])
        [tkText " t ", tkEnd "csymbol"] (some ⟨3, 2⟩) =
      (AST.new.setName "t", [tkEnd "csymbol"], [Err.BadCsymbolDefinitionURLValue]) ∧
    setTypeCI AST.new (tkStart "csymbol" [("definitionURL", "http://x")])
        [tkText " t ", tkEnd "csymbol"] none =
      (((AST.new.setType AST_CSYMBOL_FUNCTION).setDefinitionURL "http://x").setName "t",
       [tkEnd "csymbol"], []) :=
  ⟨C4_csymbol_resolution.1 AST.new " t " [tkEnd "csymbol"] (some ⟨3, 2⟩) rfl,
   C4_csymbol_resolution.2.1 AST.new "http://x" " t " [tkEnd "csymbol"] ⟨3, 2⟩ rfl,
   C4_csymbol_resolution.2.2 AST.new "http://x" " t " [tkEnd "csymbol"] rfl⟩

/-- C9: 32-bit range enforcement on integer and rational cn payloads.
When the numeric text denotes a value outside the signed 32-bit range,
the reader logs the type-specific read-failure diagnostic
(FailedMathMLReadOfInteger / FailedMathMLReadOfRational) but still sets
the clamped best-effort value on the node and returns normally. -/
theorem C9_int32_range_enforcement :
    (∀ (node : AST) (txt : String) (rest : Stream) (sbmlns : Option SBMLNS) (v : Int),
      decIntValue txt = some v → SBML_INT_MAX < v →
      setTypeCN node (tkStart "cn" [("type", "integer")]) (tkText txt :: rest) sbmlns =
        (node.setValueInt SBML_INT_MAX, rest, [Err.FailedMathMLReadOfInteger])) ∧
    (∀ (node : AST) (txt : String) (rest : Stream) (sbmlns : Option SBMLNS) (v : Int),
      decIntValue txt = some v → v < SBML_INT_MIN →
      setTypeCN node (tkStart "cn" [("type", "integer")]) (tkText txt :: rest) sbmlns =
        (node.setValueInt SBML_INT_MIN, rest, [Err.FailedMathMLReadOfInteger])) ∧
    (∀ (node : AST) (txt : String) (rest : Stream) (sbmlns : Option SBMLNS) (v : Int),
      decIntValue txt = some v → SBML_INT_MAX < v →
      (Stream.peekT rest).getName ≠ "sep" →
      setTypeCN node (tkStart "cn" [("type", "rational")]) (tkText txt :: rest) sbmlns =
        (node.setValueRational SBML_INT_MAX 1, rest, [Err.FailedMathMLReadOfRational])) := by
  refine ⟨?_, ?_, ?_⟩
  · intro node txt rest sbmlns v hv hlt
    have h : istreamInt txt = (SBML_INT_MAX, true) := by
      simp [istreamInt, hv, hlt]
    simp [setTypeCN, XMLToken.readInto, tkStart, tkText, Stream.nextT,
      XMLToken.getCharacters, h, isValidInternalUnitSId,
      show List.lookup "units" [("type", "integer")] = (none : Option String) from rfl]
  · intro node txt rest sbmlns v hv hlt
    have h : istreamInt txt = (SBML_INT_MIN, true) := by
      have : ¬ SBML_INT_MAX < v := by
        simp [SBML_INT_MAX]; simp [SBML_INT_MIN] at hlt; omega
      simp [istreamInt, hv, hlt, this]
    simp [setTypeCN, XMLToken.readInto, tkStart, tkText, Stream.nextT,
      XMLToken.getCharacters, h, isValidInternalUnitSId,
      show List.lookup "units" [("type", "integer")] = (none : Option String) from rfl]
  · intro node txt rest sbmlns v hv hlt hsep
    have h : istreamInt txt = (SBML_INT_MAX, true) := by
      simp [istreamInt, hv, hlt]
    simp [setTypeCN, XMLToken.readInto, tkStart, tkText, Stream.nextT,
      XMLToken.getCharacters, h, hsep, isValidInternalUnitSId,
      show List.lookup "units" [("type", "rational")] = (none : Option String) from rfl]

/-- Witness for C9 at the out-of-range texts 9999999999 and -9999999999. -/
theorem C9_int32_range_enforcement_witness :
    setTypeCN AST.new (tkStart "cn" [("type", "integer")])
        [tkText "9999999999", tkEnd "cn"] none =
      (AST.new.setValueInt SBML_INT_MAX, [tkEnd "cn"], [Err.FailedMathMLReadOfInteger]) ∧
    setTypeCN AST.new (tkStart "cn" [("type", "integer")])
        [tkText "-9999999999", tkEnd "cn"] none =
      (AST.new.setValueInt SBML_INT_MIN, [tkEnd "cn"], [Err.FailedMathMLReadOfInteger]) ∧
    setTypeCN AST.new (tkStart "cn" [("type", "rational")])
        [tkText "9999999999", tkEnd "cn"] none =
      (AST.new.setValueRational SBML_INT_MAX 1, [tkEnd "cn"],
       [Err.FailedMathMLReadOfRational]) :=
  ⟨C9_int32_range_enforcement.1 AST.new "9999999999" [tkEnd "cn"] none 9999999999
     rfl (by decide),
   C9_int32_range_enforcement.2.1 AST.new "-9999999999" [tkEnd "cn"] none (-9999999999)
     (by decide) (by decide),
   C9_int32_range_enforcement.2.2 AST.new "9999999999" [tkEnd "cn"] none 9999999999
     rfl (by decide) (by decide)⟩

/-- C7: units emission condition.  For every numeric node written as a
`cn` element, the sbml:units attribute appears among the written
attributes exactly when the node's units string is non-empty and either
no namespace context was supplied to the writer or the supplied
context's level equals 3. -/
theorem C7_units_emission (node : AST) (sbmlns : Option SBMLNS)
    (_h : node.isNumber = true) :
    "sbml:units" ∈ (writeCN node sbmlns).attrNames ↔
      node.getUnits ≠ "" ∧ (sbmlns = none ∨ sbmlns.map SBMLNS.level = some 3) := by
  simp only [writeCN, AST.isNaN, AST.isInfinity, AST.isNegInfinity, Bool.false_and,
    Bool.and_false, Bool.not_false, Bool.and_true, if_false, Bool.false_eq_true,
    ite_false]
  by_cases hu : node.getUnits = ""
  · by_cases hns : (sbmlns = none ∨ sbmlns.map SBMLNS.level = some 3) <;>
      simp [hu, XNode.attrNames, writeAttributes, writeEForm, writeEFormStrings,
        writeDouble] <;>
      split_ifs <;> simp_all [XNode.attrNames]
  · by_cases hns : (sbmlns = none ∨ sbmlns.map SBMLNS.level = some 3)
    · have hb : (decide (sbmlns = none) || decide (sbmlns.map SBMLNS.level = some 3)) = true := by
        rcases hns with h | h <;> simp [h]
      simp [hu, hb, XNode.attrNames, writeAttributes, writeEForm, writeEFormStrings,
        writeDouble, hns]
      split_ifs <;> simp [XNode.attrNames]
    · have hb : (decide (sbmlns = none) || decide (sbmlns.map SBMLNS.level = some 3)) = false := by
        push_neg at hns
        simp [hns.1, hns.2]
      simp [hu, hb, XNode.attrNames, writeAttributes, writeEForm, writeEFormStrings,
        writeDouble, hns]
      split_ifs <;> simp_all [XNode.attrNames]

/-- Witness for C7 at a concrete integer node with units "mole", written
with no namespace context. -/
theorem C7_units_emission_witness :
    "sbml:units" ∈ (writeCN ((AST.new.setValueInt 5).setUnits "mole") none).attrNames ∧
    ((AST.new.setValueInt 5).setUnits "mole").getUnits ≠ "" :=
  ⟨(C7_units_emission ((AST.new.setValueInt 5).setUnits "mole") none rfl).2
    ⟨by decide, Or.inl rfl⟩, by decide⟩

/-- C8: lambda serialization with faithful missing-body reproduction.
For every lambda node with at least one child (`last` its final child),
the writer wraps every child except the last individually in a `bvar`
element and emits the last child as the unwrapped body; except when the
last child is itself flagged as a bvar, in which case every child is
emitted wrapped in `bvar` and no body is emitted. -/
theorem C8_lambda_serialization (fuel : Nat) (inSem : Bool) (node : AST)
    (sbmlns : Option SBMLNS) (last : AST)
    (hlast : node.children.getLast? = some last) :
    (last.isBvar = false →
      writeLambda (fuel + 1) inSem node sbmlns =
        .elem "lambda" []
          ((node.children.dropLast.map
              (fun c => XNode.elem "bvar" [] (writeNode fuel inSem c sbmlns))) ++
            writeNode fuel inSem last sbmlns)) ∧
    (last.isBvar = true →
      writeLambda (fuel + 1) inSem node sbmlns =
        .elem "lambda" []
          (node.children.map
            (fun c => XNode.elem "bvar" [] (writeNode fuel inSem c sbmlns)))) := by
  have hne : node.children ≠ [] := by
    intro h
    rw [h] at hlast
    simp at hlast
  have hpos : 0 < node.children.length := List.length_pos.2 hne
  have hidx : node.children[node.children.length - 1]? = some last := by
    rw [← List.getLast?_eq_getElem?]
    exact hlast
  constructor
  · intro hb
    simp only [writeLambda, AST.getNumChildren_eq, AST.getChild, List.get?_eq_getElem?,
      hidx, Option.map_some', Option.getD_some, hb, Bool.false_eq_true, if_false]
    rw [← List.dropLast_eq_take]
  · intro hb
    simp only [writeLambda, AST.getNumChildren_eq, AST.getChild, List.get?_eq_getElem?,
      hidx, Option.map_some', Option.getD_some, hb, if_true]
    have hlen : node.children.length - 1 + 1 = node.children.length := by omega
    rw [hlen, List.take_length, List.append_nil]

/-- Witness for C8: a lambda with a bvar and a plus body, and a malformed
lambda whose children are all bvars (missing body). -/
theorem C8_lambda_serialization_witness :
    writeLambda 9 false
        ((AST.newOfType AST_LAMBDA).setChildren
          [(AST.new.setName "x").setBvar,
           (AST.newOfType AST_PLUS).setChildren [AST.new.setName "x", intNode 1]])
        none =
      .elem "lambda" []
        ([XNode.elem "bvar" []
            (writeNode 8 false ((AST.new.setName "x").setBvar) none)] ++
          writeNode 8 false
            ((AST.newOfType AST_PLUS).setChildren [AST.new.setName "x", intNode 1]) none) ∧
    writeLambda 9 false
        ((AST.newOfType AST_LAMBDA).setChildren
          [(AST.new.setName "x").setBvar, (AST.new.setName "y").setBvar])
        none =
      .elem "lambda" []
        [XNode.elem "bvar" [] (writeNode 8 false ((AST.new.setName "x").setBvar) none),
         XNode.elem "bvar" [] (writeNode 8 false ((AST.new.setName "y").setBvar) none)] :=
  ⟨(C8_lambda_serialization 8 false
      ((AST.newOfType AST_LAMBDA).setChildren
        [(AST.new.setName "x").setBvar,
         (AST.newOfType AST_PLUS).setChildren [AST.new.setName "x", intNode 1]])
      none ((AST.newOfType AST_PLUS).setChildren [AST.new.setName "x", intNode 1])
      rfl).1 rfl,
   (C8_lambda_serialization 8 false
      ((AST.newOfType AST_LAMBDA).setChildren
        [(AST.new.setName "x").setBvar, (AST.new.setName "y").setBvar])
      none ((AST.new.setName "y").setBvar) rfl).2 rfl⟩

/-- C10: null-input totality of the public entry points.
`readMathMLFromString` on a null pointer is null with no parse and no
log; the two-argument `writeMathMLToStdString` is the empty string (the
empty token run) when the node or the namespace context is null; and
`writeMathMLWithNamespaceToString` is null when the node or the namespace
context is null.  None posts a diagnostic. -/
theorem C10_null_totality :
    readMathMLFromString none = none ∧
    (∀ sbmlns : Option SBMLNS, writeMathMLToStdString2 none sbmlns = []) ∧
    (∀ node : Option AST, writeMathMLToStdString2 node none = []) ∧
    (∀ sbmlns : Option SBMLNS, writeMathMLWithNamespaceToString none sbmlns = none) ∧
    (∀ node : Option AST, writeMathMLWithNamespaceToString node none = none) := by
  refine ⟨rfl, ?_, ?_, ?_, ?_⟩
  · intro sbmlns; cases sbmlns <;> rfl
  · intro node; cases node <;> rfl
  · intro sbmlns; cases sbmlns <;> rfl
  · intro node; cases node <;> rfl

end LibSBML
